import Mathlib

/-!
# Phyntra front-end: the conversation / upload controller of `src/App.js`

A shallow embedding of the stateful part of the `App` component:
`uploadInvoice`, `handleSendMessage` (with its `setTimeout` callback) and
`handleFileUpload`, together with the React state they mutate
(`messages`, `inputMessage`, `isProcessing`).

Conventions of the embedding.

* JavaScript strings are Lean `String`s.
* A value read out of a parsed JSON body is a `JsVal`: `undefined`, `null`, a
  boolean, a number, a string, an array or an object. A number is given by its
  shortest decimal expansion, which is what `Number::toString` prints.
* A thrown `Error` is represented by its `message`; the messages of the
  `TypeError`s raised by the engine have the wording of V8.
* The `id` and `timestamp` fields of a message are read from the wall clock
  and the random generator (`Date.now() + Math.random()`); they are not part
  of the embedding.
-/

namespace Phyntra

/-! ## JavaScript strings -/

/-- `String.prototype.includes` on lists of characters. -/
def includesChars (hay needle : List Char) : Bool :=
  hay.tails.any (fun t => needle.isPrefixOf t)

/-- `String.prototype.includes`. -/
def includes (s sub : String) : Bool :=
  includesChars s.data sub.data

/-- The code points removed by `String.prototype.trim`: ECMAScript
`WhiteSpace` and `LineTerminator`. -/
def isJsWhiteSpace (c : Char) : Bool :=
  let n := c.toNat
  n == 0x09 || n == 0x0A || n == 0x0B || n == 0x0C || n == 0x0D || n == 0x20 ||
  n == 0xA0 || n == 0x1680 || (0x2000 ≤ n && n ≤ 0x200A) || n == 0x2028 ||
  n == 0x2029 || n == 0x202F || n == 0x205F || n == 0x3000 || n == 0xFEFF

/-- `String.prototype.trim`. -/
def trim (s : String) : String :=
  ⟨((s.data.dropWhile isJsWhiteSpace).reverse.dropWhile isJsWhiteSpace).reverse⟩

/-- The `length` of a string: its number of UTF-16 code units. -/
def utf16Length (s : String) : Nat :=
  (s.data.map (fun c => if 0x10000 ≤ c.toNat then 2 else 1)).sum

/-! ## JavaScript numbers -/

/-- A number as `JSON.parse` can deliver it: a finite value
`± digits × 10 ^ exponent`, or an infinity (from a literal like `1e999`). -/
inductive JsNum where
  | finite (negative : Bool) (digits : Nat) (exponent : Int)
  | infinity (negative : Bool)
  deriving DecidableEq, Repr

/-- A non-negative integer as a number. -/
def JsNum.ofNat (n : Nat) : JsNum := .finite false n 0

/-- A number is falsy when it is `+0` or `-0`. -/
def JsNum.isZero : JsNum → Bool
  | .finite _ digits _ => digits == 0
  | .infinity _ => false

/-- The comparison `x > 0` on numbers. -/
def JsNum.positive : JsNum → Bool
  | .finite negative digits _ => !negative && digits != 0
  | .infinity negative => !negative

/-- The digits of a decimal expansion without its trailing zeros. -/
def stripZeros (ds : List Char) : List Char :=
  (ds.reverse.dropWhile (fun c => c == '0')).reverse

/-- The exponent part `e+21` / `e-7` of the scientific notation. -/
def exponentText (e : Int) : String :=
  "e" ++ (if e < 0 then "-" else "+") ++ toString e.natAbs

/-- `Number::toString` for a positive number with significant digits `sd`
(`k` of them) whose value is `0.sd × 10 ^ n`. -/
def formatDecimal (sd : List Char) (n : Int) : String :=
  if (sd.length : Int) ≤ n ∧ n ≤ 21 then
    ⟨sd ++ List.replicate (n - sd.length).toNat '0'⟩
  else if 0 < n ∧ n ≤ 21 then
    ⟨sd.take n.toNat ++ '.' :: sd.drop n.toNat⟩
  else if -6 < n ∧ n ≤ 0 then
    ⟨'0' :: '.' :: (List.replicate (-n).toNat '0' ++ sd)⟩
  else
    match sd with
    | [] => exponentText (n - 1)
    | [d] => ⟨[d]⟩ ++ exponentText (n - 1)
    | d :: rest => ⟨d :: '.' :: rest⟩ ++ exponentText (n - 1)

/-- `Number::toString` (radix 10). -/
def JsNum.toStr : JsNum → String
  | .infinity negative => (if negative then "-" else "") ++ "Infinity"
  | .finite negative digits exponent =>
    if digits = 0 then "0"
    else
      (if negative then "-" else "")
        ++ formatDecimal (stripZeros (Nat.toDigits 10 digits))
            ((Nat.toDigits 10 digits).length + exponent)

/-! ## `ToNumber` on strings, as far as `> 0` needs it -/

/-- A decimal digit. -/
def isDecimalDigit (c : Char) : Bool :=
  48 ≤ c.toNat && c.toNat ≤ 57

/-- A hexadecimal digit. -/
def isHexDigit (c : Char) : Bool :=
  isDecimalDigit c || (65 ≤ c.toNat && c.toNat ≤ 70) || (97 ≤ c.toNat && c.toNat ≤ 102)

/-- The value of a run of decimal digits. -/
def digitsValue (ds : List Char) : Nat :=
  ds.foldl (fun acc c => 10 * acc + (c.toNat - 48)) 0

/-- A non-empty run of decimal digits. -/
def isDigitRun (ds : List Char) : Bool :=
  !ds.isEmpty && ds.all isDecimalDigit

/-- The value of an optional `ExponentPart`; `none` when the text is not one. -/
def exponentValue (cs : List Char) : Option Int :=
  match cs with
  | [] => some 0
  | c :: rest =>
    if c == 'e' || c == 'E' then
      match rest with
      | '+' :: ds => if isDigitRun ds then some (digitsValue ds) else none
      | '-' :: ds => if isDigitRun ds then some (-(digitsValue ds : Int)) else none
      | ds => if isDigitRun ds then some (digitsValue ds) else none
    else none

/-- Whether `cs` is a `StrUnsignedDecimalLiteral` whose value, rounded to a
double, is greater than zero (it rounds to zero at or below `2 ^ -1075`). -/
def unsignedDecimalPositive (cs : List Char) : Bool :=
  if cs == "Infinity".data then true
  else
    let intPart := cs.takeWhile isDecimalDigit
    let afterInt := cs.dropWhile isDecimalDigit
    let fracPart := match afterInt with
      | '.' :: r => r.takeWhile isDecimalDigit
      | _ => []
    let afterFrac := match afterInt with
      | '.' :: r => r.dropWhile isDecimalDigit
      | _ => afterInt
    if intPart.isEmpty && fracPart.isEmpty then false
    else
      match exponentValue afterFrac with
      | none => false
      | some e =>
        let mantissa := digitsValue (intPart ++ fracPart)
        let scale : Int := e - fracPart.length
        if mantissa = 0 then false
        else if 0 ≤ scale then true
        else decide (10 ^ (-scale).toNat < mantissa * 2 ^ 1075)

/-- Whether the digits after a `0x` / `0o` / `0b` prefix form a literal with a
value greater than zero. -/
def nonDecimalPositive (isDigit : Char → Bool) (ds : List Char) : Bool :=
  !ds.isEmpty && ds.all isDigit && ds.any (fun c => c != '0')

/-- `ToNumber(s) > 0` for a string `s` (`StringToNumber`, correctly rounded). -/
def stringToNumberPositive (s : String) : Bool :=
  match (trim s).data with
  | '0' :: 'x' :: ds => nonDecimalPositive isHexDigit ds
  | '0' :: 'X' :: ds => nonDecimalPositive isHexDigit ds
  | '0' :: 'o' :: ds => nonDecimalPositive (fun c => 48 ≤ c.toNat && c.toNat ≤ 55) ds
  | '0' :: 'O' :: ds => nonDecimalPositive (fun c => 48 ≤ c.toNat && c.toNat ≤ 55) ds
  | '0' :: 'b' :: ds => nonDecimalPositive (fun c => c == '0' || c == '1') ds
  | '0' :: 'B' :: ds => nonDecimalPositive (fun c => c == '0' || c == '1') ds
  | '-' :: _ => false
  | '+' :: rest => unsignedDecimalPositive rest
  | rest => unsignedDecimalPositive rest

/-! ## JavaScript values -/

/-- A value read out of a parsed JSON body; `undefined` is what a property
access yields for an absent key. An object lists its members in the order of
the JSON text; of two members with one key the later one is the property. -/
inductive JsVal where
  | undefined
  | null
  | bool (b : Bool)
  | num (n : JsNum)
  | str (s : String)
  | arr (items : List JsVal)
  | obj (fields : List (String × JsVal))
  deriving Repr

/-- Whether an object has an own property `name`. -/
def hasOwn (name : String) (fields : List (String × JsVal)) : Bool :=
  fields.any (fun p => p.1 == name)

/-- The own property `name` of an object, `undefined` when there is none. -/
def lookup (name : String) : List (String × JsVal) → JsVal
  | [] => .undefined
  | (k, v) :: rest =>
    if hasOwn name rest then lookup name rest
    else if k == name then v
    else .undefined

/-- JavaScript `ToBoolean`. -/
def JsVal.truthy : JsVal → Bool
  | .undefined => false
  | .null => false
  | .bool b => b
  | .num n => !n.isZero
  | .str s => s != ""
  | .arr _ => true
  | .obj _ => true

/-- Whether the value is `undefined` or `null`. -/
def JsVal.nullish : JsVal → Bool
  | .undefined => true
  | .null => true
  | _ => false

mutual
/-- Whether `ToString` throws a `TypeError` on the value: it does on an object
with an own (hence not callable) `toString` property, and on an array that
has such an element. -/
def JsVal.throws : JsVal → Bool
  | .obj fields => hasOwn "toString" fields
  | .arr items => throwsAny items
  | _ => false
/-- Whether `Array.prototype.join` throws on the elements. -/
def throwsAny : List JsVal → Bool
  | [] => false
  | .undefined :: rest => throwsAny rest
  | .null :: rest => throwsAny rest
  | v :: rest => v.throws || throwsAny rest
end

mutual
/-- The result of `ToString` on a value on which it does not throw. -/
def JsVal.text : JsVal → String
  | .undefined => "undefined"
  | .null => "null"
  | .bool true => "true"
  | .bool false => "false"
  | .num n => n.toStr
  | .str s => s
  | .arr items => joinText items
  | .obj _ => "[object Object]"
/-- The result of `Array.prototype.join` with the separator `,`: `undefined`
and `null` elements contribute the empty string. -/
def joinText : List JsVal → String
  | [] => ""
  | v :: rest =>
    (match v with
      | .undefined => ""
      | .null => ""
      | w => w.text)
    ++ (match rest with
      | [] => ""
      | _ :: _ => "," ++ joinText rest)
end

/-- The message of the `TypeError` of a failed `ToPrimitive`. -/
def toPrimitiveError : String := "Cannot convert object to primitive value"

/-- `ToString`, as applied by a template literal and by `new Error(value)`. -/
def toStringOf (v : JsVal) : Except String String :=
  if v.throws then .error toPrimitiveError else .ok v.text

/-- The property names the front-end reads with the dot operator. None of
them is an own or inherited property of a string, a number, a boolean or an
array. -/
inductive Key where
  | detail | success | data | file_hash | message
  | Invoice_Number | Invoice_Date | Vendor_Name | Vendor_GSTIN | Buyer_Name
  | Items | Qty | Rate
  deriving DecidableEq, Repr

/-- The name of a property. -/
def Key.name : Key → String
  | .detail => "detail"
  | .success => "success"
  | .data => "data"
  | .file_hash => "file_hash"
  | .message => "message"
  | .Invoice_Number => "Invoice_Number"
  | .Invoice_Date => "Invoice_Date"
  | .Vendor_Name => "Vendor_Name"
  | .Vendor_GSTIN => "Vendor_GSTIN"
  | .Buyer_Name => "Buyer_Name"
  | .Items => "Items"
  | .Qty => "Qty"
  | .Rate => "Rate"

/-- The value of `base.key` for a `base` that is neither `undefined` nor
`null`. -/
def JsVal.get (base : JsVal) (key : Key) : JsVal :=
  match base with
  | .obj fields => lookup key.name fields
  | _ => .undefined

/-- The message of the `TypeError` of a property read on `undefined` or
`null`. -/
def readError (base : String) (property : String) : String :=
  "Cannot read properties of " ++ base ++ " (reading '" ++ property ++ "')"

/-- The property read `base.key`. -/
def getProp (base : JsVal) (key : Key) : Except String JsVal :=
  match base with
  | .undefined => .error (readError "undefined" key.name)
  | .null => .error (readError "null" key.name)
  | v => .ok (v.get key)

/-- The value of `base.length` for a `base` that is neither `undefined` nor
`null`. -/
def lengthOf (base : JsVal) : JsVal :=
  match base with
  | .str s => .num (.ofNat (utf16Length s))
  | .arr items => .num (.ofNat items.length)
  | .obj fields => lookup "length" fields
  | _ => .undefined

/-- The comparison `v > 0`: `ToPrimitive` with hint number, then `ToNumber`. -/
def greaterThanZero (v : JsVal) : Except String Bool :=
  match v with
  | .undefined => .ok false
  | .null => .ok false
  | .bool b => .ok b
  | .num n => .ok n.positive
  | .str s => .ok (stringToNumberPositive s)
  | .arr items =>
    if throwsAny items then .error toPrimitiveError
    else .ok (stringToNumberPositive (joinText items))
  | .obj fields =>
    if hasOwn "toString" fields then .error toPrimitiveError else .ok false

/-! ## Data model -/

/-- The `type` field of a message. -/
inductive MessageType where
  | user
  | bot
  deriving DecidableEq, Repr

/-- A browser `File` handle. -/
structure File where
  name : String
  type : String
  size : Nat
  deriving DecidableEq, Repr

/-- The outcome of `response.json()`: a `SyntaxError` with its message, or
the parsed body. -/
inductive JsonResult where
  | syntaxError (message : String)
  | parsed (body : JsVal)
  deriving Repr

/-- A `Response` as delivered by `fetch`. -/
structure Response where
  status : Nat
  json : JsonResult
  deriving Repr

/-- The getter `response.ok`: the status is in the range 200-299. -/
def Response.ok (r : Response) : Bool :=
  200 ≤ r.status && r.status ≤ 299

/-- What the `fetch` promise settles to: rejection with an error message
(network failure), or a response. -/
inductive FetchResult where
  | rejected (message : String)
  | resolved (response : Response)
  deriving Repr

/-- An entry of the `messages` array; `invoiceData` and `fileHash` are
`undefined` on the messages that do not carry them. -/
structure Message where
  type : MessageType
  content : String
  file : Option File
  processing : Bool
  invoiceData : JsVal
  fileHash : JsVal
  deriving Repr

/-- The React state of `App` that the controller owns, with the number of
armed `setTimeout` callbacks of `handleSendMessage`. -/
structure ConversationState where
  messages : List Message
  inputMessage : String
  isProcessing : Bool
  pendingReplies : Nat
  deriving Repr

/-- A message carrying only `type` and `content`. -/
def plainMessage (t : MessageType) (content : String) : Message :=
  { type := t, content := content, file := none, processing := false,
    invoiceData := .undefined, fileHash := .undefined }

/-- The seeded welcome message of `useState([...])`. -/
def welcomeMessage : Message :=
  plainMessage .bot "Welcome to Phyntra! 👋 I'm here to help you process invoices. Upload your documents and I'll extract all the key information for you."

/-- The initial state of the component. -/
def initialState : ConversationState :=
  { messages := [welcomeMessage], inputMessage := "", isProcessing := false,
    pendingReplies := 0 }

/-! ## `uploadInvoice` -/

/-- The generic message of `uploadInvoice` for a non-ok status. -/
def httpErrorMessage (status : Nat) : String :=
  "HTTP error! status: " ++ toString status

/-- The message of `new Error(errorData.detail || 'HTTP error! ...')`, or of
the `TypeError` thrown while it is evaluated. -/
def errorDataMessage (errorData : JsVal) (status : Nat) : String :=
  match getProp errorData .detail with
  | .error m => m
  | .ok detail =>
    if detail.truthy then
      match toStringOf detail with
      | .error m => m
      | .ok text => text
    else httpErrorMessage status

/-- `uploadInvoice`, given what `fetch` settles to: the thrown error's
message, or the returned parsed body. -/
def uploadInvoice (fr : FetchResult) : Except String JsVal :=
  match fr with
  | .rejected m => .error m
  | .resolved response =>
    if !response.ok then
      match response.json with
      | .syntaxError m => .error m
      | .parsed errorData => .error (errorDataMessage errorData response.status)
    else
      match response.json with
      | .syntaxError m => .error m
      | .parsed body => .ok body

/-! ## `handleSendMessage` -/

/-- The canned reply of the `setTimeout` callback. -/
def cannedReply : Message :=
  plainMessage .bot "I understand you want to process invoices. Please upload your documents using the upload button and I'll extract all the key information for you!"

/-- `handleSendMessage`: reads `inputMessage` from the state. -/
def handleSendMessage (s : ConversationState) : ConversationState :=
  if trim s.inputMessage != "" then
    { s with
      messages := s.messages ++ [plainMessage .user s.inputMessage],
      pendingReplies := s.pendingReplies + 1,
      inputMessage := "" }
  else s

/-- The body of the `setTimeout` callback, run when one armed timer fires. -/
def timerFires (s : ConversationState) : ConversationState :=
  { s with
    messages := s.messages ++ [cannedReply],
    pendingReplies := s.pendingReplies - 1 }

/-- The `onChange` handler of the text input: `setInputMessage(e.target.value)`. -/
def setInputMessage (text : String) (s : ConversationState) : ConversationState :=
  { s with inputMessage := text }

/-! ## `handleFileUpload` -/

/-- The `user` message announcing a file. -/
def uploadedMessage (file : File) : Message :=
  { type := .user, content := "📄 Uploaded: " ++ file.name, file := some file,
    processing := false, invoiceData := .undefined, fileHash := .undefined }

/-- The `bot` message announcing that processing started. -/
def processingMessage (file : File) : Message :=
  { type := .bot,
    content := "🔄 Processing " ++ file.name ++ "... Extracting invoice data now.",
    file := none, processing := true, invoiceData := .undefined, fileHash := .undefined }

/-- `items?.length || 0` for the value `items` of `invoiceData.Items`. -/
def itemsCount (items : JsVal) : JsVal :=
  if items.nullish then .num (.ofNat 0)
  else if (lengthOf items).truthy then lengthOf items
  else .num (.ofNat 0)

/-- The text of `${value || fallback}` when `ToString` does not throw. -/
def orElse (value : JsVal) (fallback : String) : String :=
  if value.truthy then value.text else fallback

/-- The template fragment `${value || fallback}` with a string `fallback`. -/
def templateOr (value : JsVal) (fallback : String) : Except String String :=
  if value.truthy then toStringOf value else .ok fallback

/-- The statement `if (value) responseMessage += <before>${value}<after>`:
what it appends. -/
def annotation (value : JsVal) (before after : String) : Except String String :=
  if value.truthy then
    match toStringOf value with
    | .error m => .error m
    | .ok text => .ok (before ++ text ++ after)
  else .ok ""

/-- The body of the `forEach` callback for the item at `index`: what it
appends to `responseMessage`. -/
def lineItemText (index : Nat) (item : JsVal) : Except String String := do
  let description ← getProp item .Items
  if description.truthy then
    let text ← toStringOf description
    let qty ← getProp item .Qty
    let qtyText ← annotation qty " (Qty: " ")"
    let rate ← getProp item .Rate
    let rateText ← annotation rate " @ ₹" ""
    pure ((JsNum.ofNat (index + 1)).toStr ++ ". " ++ text ++ qtyText ++ rateText ++ "\n")
  else pure ""

/-- The `forEach` loop over the elements of an array, the first of which
has index `index`. -/
def lineItemsFrom (index : Nat) : List JsVal → Except String String
  | [] => .ok ""
  | item :: rest => do
    let line ← lineItemText index item
    let more ← lineItemsFrom (index + 1) rest
    pure (line ++ more)

/-- The call `invoiceData.Items.forEach(...)` for the value `items` of
`invoiceData.Items`: only an array has a `forEach` method. -/
def forEachItem (items : JsVal) : Except String String :=
  match items with
  | .arr list => lineItemsFrom 0 list
  | .undefined => .error (readError "undefined" "forEach")
  | .null => .error (readError "null" "forEach")
  | _ => .error "invoiceData.Items.forEach is not a function"

/-- The `if (itemsCount > 0)` block: what it appends. -/
def lineItemsSection (items : JsVal) : Except String String := do
  let positive ← greaterThanZero (itemsCount items)
  if positive then
    let lines ← forEachItem items
    pure ("\n**Line Items:**\n" ++ lines)
  else pure ""

/-- The five detail lines and the item count line. -/
def detailLines (invoiceData : JsVal) (count : JsVal) : Except String String := do
  let number ← getProp invoiceData .Invoice_Number
  let numberText ← templateOr number "Not found"
  let date ← getProp invoiceData .Invoice_Date
  let dateText ← templateOr date "Not found"
  let vendor ← getProp invoiceData .Vendor_Name
  let vendorText ← templateOr vendor "Not found"
  let gstin ← getProp invoiceData .Vendor_GSTIN
  let gstinText ← templateOr gstin "Not found"
  let buyer ← getProp invoiceData .Buyer_Name
  let buyerText ← templateOr buyer "Not found"
  let countText ← toStringOf count
  pure ("• Invoice #: " ++ numberText ++ "\n"
    ++ "• Date: " ++ dateText ++ "\n"
    ++ "• Vendor: " ++ vendorText ++ "\n"
    ++ "• Vendor GSTIN: " ++ gstinText ++ "\n"
    ++ "• Buyer: " ++ buyerText ++ "\n"
    ++ "• Items: " ++ countText ++ " line item(s)\n")

/-- The final value of `responseMessage` on the success path, or the message
of the error thrown while it is built. -/
def responseMessage (fileName : String) (invoiceData : JsVal) : Except String String := do
  let items ← getProp invoiceData .Items
  let details ← detailLines invoiceData (itemsCount items)
  let lineItems ← lineItemsSection items
  pure ("✅ Successfully extracted data from " ++ fileName ++ "!\n\n📋 **Invoice Details:**\n"
    ++ details
    ++ lineItems
    ++ "\nData has been saved to the database. You can approve or reject this processing.")

/-- The trailing suggestion of every failure message. -/
def retrySuggestion : String :=
  "\n\nPlease try again with a clearer image or different format."

/-- The `Error:` section chosen by the `if / else if` chain of the `catch`
block for an error with message `m`. -/
def errorSection (m : String) : String :=
  if includes m "API key" then
    "\n\nError: OpenAI API key not configured. Please contact administrator."
  else if includes m "Rate limit" then
    "\n\nError: API rate limit reached. Please try again in a few minutes."
  else if includes m "File too large" then
    "\n\nError: File is too large. Maximum size is 10MB."
  else if includes m "File type not supported" then
    "\n\nError: File type not supported. Please use PDF, JPG, or PNG files."
  else
    "\n\nError: " ++ m

/-- The final value of `errorMessage` in the `catch` block. -/
def errorMessage (fileName : String) (m : String) : String :=
  "❌ Failed to process " ++ fileName ++ "." ++ errorSection m ++ retrySuggestion

/-- The message of the error thrown by
`throw new Error(result.message || 'Processing failed')`. -/
def processingFailure (result : JsVal) : String :=
  match getProp result .message with
  | .error m => m
  | .ok message =>
    if message.truthy then
      match toStringOf message with
      | .error m => m
      | .ok text => text
    else "Processing failed"

/-- The `try` block for one file: the success message it appends, or the
message of the error it throws. -/
def tryBlock (file : File) (fr : FetchResult) : Except String Message :=
  match uploadInvoice fr with
  | .error m => .error m
  | .ok result =>
    match getProp result .success with
    | .error m => .error m
    | .ok success =>
      if success.truthy then
        match getProp result .data with
        | .error m => .error m
        | .ok invoiceData =>
          match responseMessage file.name invoiceData with
          | .error m => .error m
          | .ok content =>
            match getProp result .file_hash with
            | .error m => .error m
            | .ok fileHash =>
              .ok { type := .bot, content := content, file := none, processing := false,
                    invoiceData := invoiceData, fileHash := fileHash }
      else .error (processingFailure result)

/-- The one message appended by `try`/`catch` for a file: the success
summary, or the failure explanation built by the `catch` block. -/
def terminalMessage (file : File) (fr : FetchResult) : Message :=
  match tryBlock file fr with
  | .ok m => m
  | .error m => plainMessage .bot (errorMessage file.name m)

/-- The loop body up to the `await`: the two announcements and
`setIsProcessing(true)`. -/
def announceFile (file : File) (s : ConversationState) : ConversationState :=
  { s with
    messages := s.messages ++ [uploadedMessage file] ++ [processingMessage file],
    isProcessing := true }

/-- The loop body from the settlement of the request to the end of
`finally`: the terminal message and `setIsProcessing(false)`. -/
def settleFile (file : File) (fr : FetchResult) (s : ConversationState) :
    ConversationState :=
  { s with
    messages := s.messages ++ [terminalMessage file fr],
    isProcessing := false }

/-- `handleFileUpload` run to completion on the files of `jobs`, each paired
with what its request settles to. -/
def handleFileUpload (jobs : List (File × FetchResult)) (s : ConversationState) :
    ConversationState :=
  match jobs with
  | [] => s
  | (file, fr) :: rest => handleFileUpload rest (settleFile file fr (announceFile file s))

/-- The three messages `handleFileUpload` appends for one file. -/
def fileMessages (job : File × FetchResult) : List Message :=
  [uploadedMessage job.1, processingMessage job.1, terminalMessage job.1 job.2]

/-- Where an invocation of `handleFileUpload` stands. -/
inductive UploadPc where
  | loopHead (queue : List (File × FetchResult))
  | awaiting (file : File) (fr : FetchResult) (queue : List (File × FetchResult))
  | finished
  deriving Repr

/-- An invocation of `handleFileUpload` in progress. -/
structure UploadRun where
  state : ConversationState
  pc : UploadPc
  deriving Repr

/-- One step of `handleFileUpload`: from the loop head to the `await`, from
the settlement of the request back to the loop head, or out of the loop. -/
def uploadStep (r : UploadRun) : UploadRun :=
  match r.pc with
  | .loopHead [] => { r with pc := .finished }
  | .loopHead ((file, fr) :: queue) =>
    { state := announceFile file r.state, pc := .awaiting file fr queue }
  | .awaiting file fr queue =>
    { state := settleFile file fr r.state, pc := .loopHead queue }
  | .finished => r

/-- The run after `n` steps. -/
def uploadSteps (n : Nat) (r : UploadRun) : UploadRun :=
  match n with
  | 0 => r
  | n + 1 => uploadSteps n (uploadStep r)

/-- The start of `handleFileUpload(files)`. -/
def startUpload (jobs : List (File × FetchResult)) (s : ConversationState) : UploadRun :=
  { state := s, pc := .loopHead jobs }

/-- The state transitions of the controller. -/
inductive Transition : ConversationState → ConversationState → Prop where
  | typed (text : String) (s : ConversationState) : Transition s (setInputMessage text s)
  | sent (s : ConversationState) : Transition s (handleSendMessage s)
  | replied (s : ConversationState) (h : 0 < s.pendingReplies) : Transition s (timerFires s)
  | announced (file : File) (s : ConversationState) : Transition s (announceFile file s)
  | settled (file : File) (fr : FetchResult) (s : ConversationState) :
      Transition s (settleFile file fr s)

/-- The states the controller can be in. -/
inductive Reachable : ConversationState → Prop where
  | init : Reachable initialState
  | step {s t : ConversationState} (hs : Reachable s) (ht : Transition s t) : Reachable t

/-! ## Sample inputs -/

/-- The initial state with `hello` typed into the input. -/
def typedHello : ConversationState := setInputMessage "hello" initialState

/-- The initial state with two blanks typed into the input. -/
def typedBlank : ConversationState := setInputMessage "  " initialState

/-- The initial state with `hi` between two blanks typed into the input. -/
def typedPadded : ConversationState := setInputMessage " hi " initialState

/-- A file named `a.pdf`. -/
def sampleFile : File := { name := "a.pdf", type := "application/pdf", size := 1024 }

/-- A response with status 200 and the parsed body `body`. -/
def okResponse (body : JsVal) : FetchResult := .resolved { status := 200, json := .parsed body }

/-- The body `{success: true, data: <data>, file_hash: "abc123"}`. -/
def successBody (data : JsVal) : JsVal :=
  .obj [("success", .bool true), ("data", data), ("file_hash", .str "abc123")]

/-- The line item `{Items: "Widget", Qty: 3, Rate: 50}`. -/
def widgetItem : JsVal :=
  .obj [("Items", .str "Widget"), ("Qty", .num (.ofNat 3)), ("Rate", .num (.ofNat 50))]

/-- A payload whose only line item is `widgetItem`. -/
def sampleWidgetInvoice : JsVal :=
  .obj [("Invoice_Number", .str "INV-1"), ("Invoice_Date", .str "2024-01-01"),
        ("Vendor_Name", .str "Acme"), ("Vendor_GSTIN", .str "22AAAAA0000A1Z5"),
        ("Buyer_Name", .str "Bob"), ("Items", .arr [widgetItem])]

/-- A payload with the invoice number `0`, the date text `undefined`, the
empty array as vendor name, a `null` GSTIN and no buyer. -/
def sampleFalsyInvoice : JsVal :=
  .obj [("Invoice_Number", .num (.ofNat 0)), ("Invoice_Date", .str "undefined"),
        ("Vendor_Name", .arr []), ("Vendor_GSTIN", .null)]

/-- A payload whose `Items` is the text `N/A`. -/
def sampleTextItemsInvoice : JsVal :=
  .obj [("Invoice_Number", .str "INV-3"), ("Items", .str "N/A")]

/-- A payload with an item without description, an item whose quantity is
`0`, and an item with the quantity `2.5` and the rate `0.1`. -/
def sampleSparseInvoice : JsVal :=
  .obj [("Invoice_Number", .str "INV-2"),
        ("Items", .arr [
          .obj [("Qty", .num (.ofNat 1)), ("Rate", .num (.ofNat 2))],
          .obj [("Items", .str "Widget"), ("Qty", .num (.ofNat 0)), ("Rate", .num (.ofNat 50))],
          .obj [("Items", .str "Cable"), ("Qty", .num (.finite false 25 (-1))),
                ("Rate", .num (.finite false 1 (-1)))]])]

/-- A payload whose second item is `null`. -/
def sampleNullItemInvoice : JsVal :=
  .obj [("Invoice_Number", .str "INV-4"), ("Items", .arr [widgetItem, .null])]

/-- The body `{success: false, message: "Processing failed"}`. -/
def sampleFailureBody : JsVal :=
  .obj [("success", .bool false), ("message", .str "Processing failed")]

/-- Two uploads: a request that is rejected, then one that succeeds. -/
def sampleJobs : List (File × FetchResult) :=
  [({ name := "b.png", type := "image/png", size := 2048 }, .rejected "Failed to fetch"),
   (sampleFile, okResponse (successBody sampleWidgetInvoice))]

/-! ## String facts -/

theorem includesChars_iff (hay needle : List Char) :
    includesChars hay needle = true ↔ needle <:+: hay := by
  unfold includesChars
  rw [List.any_eq_true, List.infix_iff_prefix_suffix]
  constructor
  · rintro ⟨t, ht, hp⟩
    exact ⟨t, List.isPrefixOf_iff_prefix.mp hp, (List.mem_tails _ _).mp ht⟩
  · rintro ⟨t, hp, ht⟩
    exact ⟨t, (List.mem_tails _ _).mpr ht, List.isPrefixOf_iff_prefix.mpr hp⟩

theorem includes_iff (s sub : String) :
    includes s sub = true ↔ ∃ pre post : String, s = pre ++ sub ++ post := by
  unfold includes
  rw [includesChars_iff]
  constructor
  · rintro ⟨a, b, h⟩
    exact ⟨⟨a⟩, ⟨b⟩, String.ext (by simp [h.symm])⟩
  · rintro ⟨pre, post, h⟩
    exact ⟨pre.data, post.data, by simp [h]⟩

theorem includes_append_left (s t sub : String) (h : includes t sub = true) :
    includes (s ++ t) sub = true := by
  obtain ⟨pre, post, hpp⟩ := (includes_iff _ _).mp h
  exact (includes_iff _ _).mpr ⟨s ++ pre, post, by rw [hpp]; simp only [String.append_assoc]⟩

theorem includes_append_right (s t sub : String) (h : includes s sub = true) :
    includes (s ++ t) sub = true := by
  obtain ⟨pre, post, hpp⟩ := (includes_iff _ _).mp h
  exact (includes_iff _ _).mpr ⟨pre, post ++ t, by rw [hpp]; simp only [String.append_assoc]⟩

theorem includes_head (sub rest : String) : includes (sub ++ rest) sub = true :=
  (includes_iff _ _).mpr ⟨"", rest, by simp⟩

theorem includes_head3 (a b c rest : String) :
    includes (a ++ (b ++ (c ++ rest))) (a ++ (b ++ c)) = true :=
  (includes_iff _ _).mpr ⟨"", rest, by simp [String.append_assoc]⟩

theorem append_left_cancel (a b c : String) (h : a ++ b = a ++ c) : b = c := by
  have hdata := congrArg String.data h
  rw [String.data_append, String.data_append] at hdata
  exact String.ext (List.append_cancel_left hdata)

/-! ## Property reads -/

theorem getProp_of_not_nullish (base : JsVal) (key : Key) (h : base.nullish = false) :
    getProp base key = .ok (base.get key) := by
  cases base <;> simp [JsVal.nullish] at h <;> rfl

theorem getProp_ok (base : JsVal) (key : Key) (v : JsVal) (h : getProp base key = .ok v) :
    base.nullish = false ∧ v = base.get key := by
  cases base <;> simp [getProp, JsVal.nullish] at h ⊢ <;> exact h.symm

theorem not_nullish_of_get (base : JsVal) (key : Key) (h : base.get key ≠ .undefined) :
    base.nullish = false := by
  cases base <;> simp [JsVal.get, JsVal.nullish] at h ⊢

/-! ## The `try` block -/

theorem tryBlock_ok (file : File) (fr : FetchResult) (m : Message)
    (h : tryBlock file fr = .ok m) :
    ∃ result content,
      uploadInvoice fr = .ok result
      ∧ result.nullish = false
      ∧ (result.get .success).truthy = true
      ∧ responseMessage file.name (result.get .data) = .ok content
      ∧ m = { type := .bot, content := content, file := none, processing := false,
              invoiceData := result.get .data, fileHash := result.get .file_hash } := by
  unfold tryBlock at h
  cases hup : uploadInvoice fr with
  | error e => simp [hup] at h
  | ok result =>
    simp only [hup] at h
    cases hs : getProp result .success with
    | error e => simp [hs] at h
    | ok success =>
      obtain ⟨hnn, hsv⟩ := getProp_ok _ _ _ hs
      simp only [fun key => getProp_of_not_nullish result key hnn] at h
      by_cases ht : (result.get .success).truthy = true
      · simp only [ht, if_true] at h
        cases hr : responseMessage file.name (result.get .data) with
        | error e => simp [hr] at h
        | ok content =>
          simp only [hr, Except.ok.injEq] at h
          exact ⟨result, content, rfl, hnn, ht, hr, h.symm⟩
      · simp [ht] at h

theorem tryBlock_of_summary (file : File) (status : Nat) (body : JsVal) (content : String)
    (hlo : 200 ≤ status) (hhi : status ≤ 299)
    (hsuccess : (body.get .success).truthy = true)
    (hcontent : responseMessage file.name (body.get .data) = .ok content) :
    tryBlock file (.resolved ⟨status, .parsed body⟩)
      = .ok { type := .bot, content := content, file := none, processing := false,
              invoiceData := body.get .data, fileHash := body.get .file_hash } := by
  have hnn : body.nullish = false :=
    not_nullish_of_get body .success (by intro h; rw [h] at hsuccess; simp [JsVal.truthy] at hsuccess)
  simp [tryBlock, uploadInvoice, Response.ok, hlo, hhi, getProp_of_not_nullish _ _ hnn,
    hsuccess, hcontent]

theorem terminalMessage_of_error (file : File) (fr : FetchResult) (m : String)
    (h : tryBlock file fr = .error m) :
    terminalMessage file fr = plainMessage .bot (errorMessage file.name m) := by
  simp [terminalMessage, h]

theorem terminalMessage_of_ok (file : File) (fr : FetchResult) (m : Message)
    (h : tryBlock file fr = .ok m) : terminalMessage file fr = m := by
  simp [terminalMessage, h]

/-! ## The timeline written by `handleFileUpload` -/

theorem handleFileUpload_messages (jobs : List (File × FetchResult)) (s : ConversationState) :
    (handleFileUpload jobs s).messages = s.messages ++ jobs.flatMap fileMessages := by
  induction jobs generalizing s with
  | nil => simp [handleFileUpload]
  | cons job rest ih =>
    obtain ⟨file, fr⟩ := job
    simp [handleFileUpload, ih, settleFile, announceFile, fileMessages]

theorem flatMap_fileMessages_length (jobs : List (File × FetchResult)) :
    (jobs.flatMap fileMessages).length = 3 * jobs.length := by
  induction jobs with
  | nil => simp
  | cons job rest ih => simp [List.flatMap_cons, ih, fileMessages]; omega

theorem flatMap_fileMessages_getElem? (jobs : List (File × FetchResult)) (i j : Nat)
    (job : File × FetchResult) (hi : jobs[i]? = some job) (hj : j < 3) :
    (jobs.flatMap fileMessages)[3 * i + j]? = (fileMessages job)[j]? := by
  induction jobs generalizing i with
  | nil => simp at hi
  | cons first rest ih =>
    cases i with
    | zero =>
      simp at hi
      subst hi
      rw [List.flatMap_cons, List.getElem?_append_left (by simpa [fileMessages] using hj)]
      simp
    | succ i =>
      simp at hi
      rw [List.flatMap_cons, List.getElem?_append_right (by simp [fileMessages]; omega)]
      have : 3 * (i + 1) + j - (fileMessages first).length = 3 * i + j := by
        simp [fileMessages]; omega
      rw [this]
      exact ih i hi

theorem terminalMessage_type (file : File) (fr : FetchResult) :
    (terminalMessage file fr).type = .bot := by
  cases h : tryBlock file fr with
  | error m => rw [terminalMessage_of_error file fr m h]; rfl
  | ok msg =>
    rw [terminalMessage_of_ok file fr msg h]
    obtain ⟨result, content, -, -, -, -, hm⟩ := tryBlock_ok file fr msg h
    rw [hm]

theorem terminalMessage_content (file : File) (fr : FetchResult) :
    (∃ d text, responseMessage file.name d = .ok text
        ∧ (terminalMessage file fr).content = text) ∨
    (∃ m, (terminalMessage file fr).content = errorMessage file.name m) := by
  cases h : tryBlock file fr with
  | error m => exact Or.inr ⟨m, by rw [terminalMessage_of_error file fr m h]; rfl⟩
  | ok msg =>
    rw [terminalMessage_of_ok file fr msg h]
    obtain ⟨result, content, -, -, -, hr, hm⟩ := tryBlock_ok file fr msg h
    exact Or.inl ⟨_, content, hr, by rw [hm]⟩

/-- C1: `handleFileUpload` appends exactly three messages per file, in file
order: the `user` announcement, the `bot` processing notice and one terminal
`bot` message (success summary or failure explanation); the outcome of one file
changes nothing but that file's own terminal message, and every file of the
queue is processed. -/
theorem handleFileUpload_three_messages_per_file
    (jobs : List (File × FetchResult)) (s : ConversationState) :
    (handleFileUpload jobs s).messages =
        s.messages ++ jobs.flatMap (fun job =>
          [uploadedMessage job.1, processingMessage job.1, terminalMessage job.1 job.2])
    ∧ (handleFileUpload jobs s).messages.length = s.messages.length + 3 * jobs.length
    ∧ (∀ i file fr, jobs[i]? = some (file, fr) →
        (handleFileUpload jobs s).messages[s.messages.length + 3 * i]?
            = some (uploadedMessage file)
        ∧ (handleFileUpload jobs s).messages[s.messages.length + 3 * i + 1]?
            = some (processingMessage file)
        ∧ (handleFileUpload jobs s).messages[s.messages.length + 3 * i + 2]?
            = some (terminalMessage file fr))
    ∧ (∀ file : File,
        (uploadedMessage file).type = .user
        ∧ (uploadedMessage file).content = "📄 Uploaded: " ++ file.name
        ∧ (processingMessage file).type = .bot
        ∧ (processingMessage file).content
            = "🔄 Processing " ++ file.name ++ "... Extracting invoice data now.")
    ∧ (∀ (file : File) (fr : FetchResult),
        (terminalMessage file fr).type = .bot
        ∧ ((∃ d text, responseMessage file.name d = .ok text
              ∧ (terminalMessage file fr).content = text)
           ∨ (∃ m, (terminalMessage file fr).content = errorMessage file.name m)))
    ∧ (∀ (before after : List (File × FetchResult)) (file : File) (fr fr' : FetchResult),
        jobs = before ++ (file, fr) :: after →
        ∃ pre post : List Message,
          pre.length = s.messages.length + 3 * before.length + 2
          ∧ post.length = 3 * after.length
          ∧ (handleFileUpload jobs s).messages = pre ++ terminalMessage file fr :: post
          ∧ (handleFileUpload (before ++ (file, fr') :: after) s).messages
              = pre ++ terminalMessage file fr' :: post) := by
  have hclosed := handleFileUpload_messages jobs s
  refine ⟨hclosed, ?_, ?_, ?_, ?_, ?_⟩
  · rw [hclosed, List.length_append, flatMap_fileMessages_length]
  · intro i file fr hi
    have h := fun j hj => flatMap_fileMessages_getElem? jobs i j (file, fr) hi hj
    have h0 := h 0 (by omega)
    have h1 := h 1 (by omega)
    have h2 := h 2 (by omega)
    rw [hclosed]
    refine ⟨?_, ?_, ?_⟩
    · rw [List.getElem?_append_right (by omega)]
      have : s.messages.length + 3 * i - s.messages.length = 3 * i + 0 := by omega
      rw [this, h0]; rfl
    · rw [List.getElem?_append_right (by omega)]
      have : s.messages.length + 3 * i + 1 - s.messages.length = 3 * i + 1 := by omega
      rw [this, h1]; rfl
    · rw [List.getElem?_append_right (by omega)]
      have : s.messages.length + 3 * i + 2 - s.messages.length = 3 * i + 2 := by omega
      rw [this, h2]; rfl
  · intro file
    exact ⟨rfl, rfl, rfl, rfl⟩
  · intro file fr
    exact ⟨terminalMessage_type file fr, terminalMessage_content file fr⟩
  · intro before after file fr fr' hjobs
    refine ⟨s.messages ++ before.flatMap fileMessages
              ++ [uploadedMessage file, processingMessage file],
            after.flatMap fileMessages, ?_, ?_, ?_, ?_⟩
    · rw [List.length_append, List.length_append, flatMap_fileMessages_length]
      simp
    · exact flatMap_fileMessages_length after
    · rw [hclosed, hjobs]
      simp [List.flatMap_append, List.flatMap_cons, fileMessages]
    · rw [handleFileUpload_messages]
      simp [List.flatMap_append, List.flatMap_cons, fileMessages]

/-- Witness of C1: a rejected upload followed by a successful one; the second
file still gets its three messages, the last of them at position `1 + 3 * 1 + 2`. -/
theorem handleFileUpload_three_messages_per_file_witness :
    (handleFileUpload sampleJobs initialState).messages.length
        = initialState.messages.length + 3 * sampleJobs.length
    ∧ (handleFileUpload sampleJobs initialState).messages[initialState.messages.length + 3 * 1 + 2]?
        = some (terminalMessage sampleFile (okResponse (successBody sampleWidgetInvoice))) :=
  ⟨(handleFileUpload_three_messages_per_file sampleJobs initialState).2.1,
   ((handleFileUpload_three_messages_per_file sampleJobs initialState).2.2.1
      1 sampleFile (okResponse (successBody sampleWidgetInvoice)) rfl).2.2⟩

/-! ## `handleSendMessage` -/

theorem dropWhile_reverse_eq_nil {α : Type} (p : α → Bool) (l : List α)
    (h : ((l.dropWhile p).reverse.dropWhile p).reverse = []) : l.dropWhile p = [] := by
  rw [List.reverse_eq_nil_iff, List.dropWhile_eq_nil_iff] at h
  cases hd : l.dropWhile p with
  | nil => rfl
  | cons x rest =>
    have hx : p x = true := h x (by simp [hd])
    have hnot := List.head_dropWhile_not p l (by simp [hd])
    simp [hd, hx] at hnot

theorem trim_eq_empty_iff (text : String) :
    trim text = "" ↔ ∀ c ∈ text.data, isJsWhiteSpace c = true := by
  unfold trim
  constructor
  · intro h
    have hdata := congrArg String.data h
    have := dropWhile_reverse_eq_nil isJsWhiteSpace text.data hdata
    exact List.dropWhile_eq_nil_iff.mp this
  · intro h
    have : text.data.dropWhile isJsWhiteSpace = [] := List.dropWhile_eq_nil_iff.mpr h
    apply String.ext
    simp [this]

theorem handleSendMessage_of_text (s : ConversationState) (h : trim s.inputMessage ≠ "") :
    handleSendMessage s =
      { s with
        messages := s.messages ++ [plainMessage .user s.inputMessage],
        pendingReplies := s.pendingReplies + 1,
        inputMessage := "" } := by
  simp [handleSendMessage, h]

theorem handleSendMessage_of_blank (s : ConversationState) (h : trim s.inputMessage = "") :
    handleSendMessage s = s := by
  simp [handleSendMessage, h]

/-- C2: `handleSendMessage` adds two messages (a `user` message, then the `bot`
reply once the armed timer has fired) when the pending text is non-empty after
trimming, and none when it is empty or whitespace-only, in which case the whole
state is unchanged and no timer is armed; `isProcessing` is never changed. -/
theorem handleSendMessage_message_count (s : ConversationState) :
    (trim s.inputMessage ≠ "" →
        (handleSendMessage s).pendingReplies = s.pendingReplies + 1
        ∧ (∃ u b : Message, u.type = .user ∧ b.type = .bot
            ∧ (handleSendMessage s).messages = s.messages ++ [u]
            ∧ (timerFires (handleSendMessage s)).messages = s.messages ++ [u, b])
        ∧ (timerFires (handleSendMessage s)).messages.length = s.messages.length + 2
        ∧ (timerFires (handleSendMessage s)).pendingReplies = s.pendingReplies)
    ∧ (trim s.inputMessage = "" →
        handleSendMessage s = s
        ∧ (handleSendMessage s).messages.length = s.messages.length + 0
        ∧ (handleSendMessage s).pendingReplies = s.pendingReplies)
    ∧ (trim s.inputMessage = "" ↔ ∀ c ∈ s.inputMessage.data, isJsWhiteSpace c = true)
    ∧ (handleSendMessage s).isProcessing = s.isProcessing
    ∧ (timerFires (handleSendMessage s)).isProcessing = s.isProcessing := by
  refine ⟨?_, ?_, trim_eq_empty_iff _, ?_, ?_⟩
  · intro h
    rw [handleSendMessage_of_text s h]
    refine ⟨rfl, ⟨plainMessage .user s.inputMessage, cannedReply, rfl, rfl, rfl, ?_⟩, ?_, ?_⟩
    · simp [timerFires]
    · simp [timerFires]
    · simp [timerFires]
  · intro h
    rw [handleSendMessage_of_blank s h]
    exact ⟨rfl, rfl, rfl⟩
  · by_cases h : trim s.inputMessage = ""
    · rw [handleSendMessage_of_blank s h]
    · rw [handleSendMessage_of_text s h]
  · by_cases h : trim s.inputMessage = ""
    · rw [handleSendMessage_of_blank s h]; rfl
    · rw [handleSendMessage_of_text s h]; rfl

/-- Witness of C2: the text `"hello"` and the blank text `"  "` sent from the
initial state. -/
theorem handleSendMessage_message_count_witness :
    (timerFires (handleSendMessage typedHello)).messages.length
        = typedHello.messages.length + 2
    ∧ handleSendMessage typedBlank = typedBlank :=
  ⟨((handleSendMessage_message_count typedHello).1 (by decide)).2.2.1,
   ((handleSendMessage_message_count typedBlank).2.1 (by decide)).1⟩

/-- C3 as stated fails: for the pending text `" hi "` the appended `user`
message carries the text with its surrounding blanks, not the trimmed text. -/
theorem handleSendMessage_content_not_trimmed :
    trim typedPadded.inputMessage = "hi"
    ∧ (handleSendMessage typedPadded).messages
        = [welcomeMessage, plainMessage .user " hi "]
    ∧ (plainMessage .user " hi ").content ≠ trim typedPadded.inputMessage :=
  ⟨by decide, rfl, by decide⟩

/-- C3, amended: for a text that is non-empty after trimming, `handleSendMessage`
appends a `user` message whose content is the pending text exactly as entered,
clears the pending input, and the reply appended when the timer fires is the
same canned `bot` message whatever the text was. -/
theorem handleSendMessage_appends_text_as_entered (s : ConversationState)
    (h : trim s.inputMessage ≠ "") :
    (handleSendMessage s).messages = s.messages ++ [plainMessage .user s.inputMessage]
    ∧ (plainMessage .user s.inputMessage).type = .user
    ∧ (plainMessage .user s.inputMessage).content = s.inputMessage
    ∧ (handleSendMessage s).inputMessage = ""
    ∧ (timerFires (handleSendMessage s)).messages
        = s.messages ++ [plainMessage .user s.inputMessage, cannedReply]
    ∧ cannedReply.type = .bot
    ∧ (∀ t : ConversationState, trim t.inputMessage ≠ "" →
        (timerFires (handleSendMessage t)).messages.getLast?
          = (timerFires (handleSendMessage s)).messages.getLast?) := by
  rw [handleSendMessage_of_text s h]
  refine ⟨rfl, rfl, rfl, rfl, by simp [timerFires], rfl, ?_⟩
  intro t ht
  rw [handleSendMessage_of_text t ht]
  simp [timerFires]

/-- Witness of amended C3 at the pending text `" hi "`. -/
theorem handleSendMessage_appends_text_as_entered_witness :
    (handleSendMessage typedPadded).messages
        = typedPadded.messages ++ [plainMessage .user typedPadded.inputMessage]
    ∧ (handleSendMessage typedPadded).inputMessage = "" :=
  ⟨(handleSendMessage_appends_text_as_entered typedPadded (by decide)).1,
   (handleSendMessage_appends_text_as_entered typedPadded (by decide)).2.2.2.1⟩

/-! ## Printing of numbers -/

theorem digitChar_ne_u (k : Nat) (hk : k < 10) : Nat.digitChar k ≠ 'u' := by
  interval_cases k <;> decide

theorem digitChar_ne_zero (k : Nat) (hpos : 0 < k) (hk : k < 10) : Nat.digitChar k ≠ '0' := by
  interval_cases k <;> decide

theorem toDigitsCore_ne_u (fuel n : Nat) (ds : List Char) (hds : ∀ c ∈ ds, c ≠ 'u') :
    ∀ c ∈ Nat.toDigitsCore 10 fuel n ds, c ≠ 'u' := by
  induction fuel generalizing n ds with
  | zero => simpa [Nat.toDigitsCore] using hds
  | succ fuel ih =>
    rw [Nat.toDigitsCore]
    have hcons : ∀ c ∈ Nat.digitChar (n % 10) :: ds, c ≠ 'u' := by
      intro c hc
      rcases List.mem_cons.mp hc with h | h
      · rw [h]; exact digitChar_ne_u _ (Nat.mod_lt _ (by decide))
      · exact hds c h
    split_ifs with h
    · exact hcons
    · exact ih (n / 10) _ hcons

theorem toDigits_ne_u (n : Nat) : ∀ c ∈ Nat.toDigits 10 n, c ≠ 'u' :=
  toDigitsCore_ne_u (n + 1) n [] (by simp)

theorem toDigitsCore_nonzero (fuel n : Nat) (ds : List Char) (hn : n ≠ 0) (hfuel : n < fuel) :
    ∃ c ∈ Nat.toDigitsCore 10 fuel n ds, c ≠ '0' := by
  induction fuel generalizing n ds with
  | zero => omega
  | succ fuel ih =>
    rw [Nat.toDigitsCore]
    split_ifs with h
    · have hlt : n < 10 := by
        by_contra hge
        have : 1 ≤ n / 10 := Nat.div_pos (by omega) (by decide)
        omega
      refine ⟨Nat.digitChar (n % 10), List.mem_cons_self _ _, ?_⟩
      rw [Nat.mod_eq_of_lt hlt]
      exact digitChar_ne_zero n (Nat.pos_of_ne_zero hn) hlt
    · exact ih (n / 10) _ h (by
        have : n / 10 < n := Nat.div_lt_self (Nat.pos_of_ne_zero hn) (by decide)
        omega)

theorem toDigitsCore_length (fuel n : Nat) (ds : List Char) (j : Nat) (hj : 1 ≤ j)
    (hn : n < 10 ^ j) : (Nat.toDigitsCore 10 fuel n ds).length ≤ j + ds.length := by
  induction fuel generalizing n ds j with
  | zero => simp [Nat.toDigitsCore]
  | succ fuel ih =>
    rw [Nat.toDigitsCore]
    split_ifs with h
    · simp; omega
    · have hge : 10 ≤ n := by
        by_contra hlt
        exact h (Nat.div_eq_of_lt (by omega))
      have hj2 : 2 ≤ j := by
        by_contra hlt
        have hj1 : j = 1 := by omega
        rw [hj1] at hn
        omega
      have hdiv : n / 10 < 10 ^ (j - 1) := by
        rw [Nat.div_lt_iff_lt_mul (by decide)]
        have hpow : 10 ^ j = 10 ^ (j - 1) * 10 := by
          rw [← Nat.pow_succ]
          congr 1
          omega
        omega
      have := ih (n / 10) (Nat.digitChar (n % 10) :: ds) (j - 1) (by omega) hdiv
      simp at this
      omega

theorem stripZeros_subset (ds : List Char) : ∀ c ∈ stripZeros ds, c ∈ ds := by
  intro c hc
  unfold stripZeros at hc
  rw [List.mem_reverse] at hc
  exact List.mem_reverse.mp ((List.dropWhile_suffix _).subset hc)

theorem stripZeros_ne_nil (ds : List Char) (h : ∃ c ∈ ds, c ≠ '0') : stripZeros ds ≠ [] := by
  obtain ⟨c, hc, hne⟩ := h
  unfold stripZeros
  intro hnil
  rw [List.reverse_eq_nil_iff, List.dropWhile_eq_nil_iff] at hnil
  have := hnil c (List.mem_reverse.mpr hc)
  simp at this
  exact hne this

theorem stripZeros_append_zeros (ds : List Char) :
    stripZeros ds ++ List.replicate (ds.length - (stripZeros ds).length) '0' = ds := by
  have hsplit := List.takeWhile_append_dropWhile (fun c => c == '0') ds.reverse
  have hzeros : List.takeWhile (fun c => c == '0') ds.reverse
      = List.replicate (List.takeWhile (fun c => c == '0') ds.reverse).length '0' := by
    rw [List.eq_replicate_iff]
    refine ⟨rfl, ?_⟩
    intro c hc
    have := List.mem_takeWhile_imp hc
    simpa using this
  have hlen : ds.length = (List.takeWhile (fun c => c == '0') ds.reverse).length
      + (stripZeros ds).length := by
    have h1 := congrArg List.length hsplit
    rw [List.length_append, List.length_reverse] at h1
    unfold stripZeros
    rw [List.length_reverse]
    omega
  have hrev : ds = stripZeros ds ++ (List.takeWhile (fun c => c == '0') ds.reverse).reverse := by
    have := congrArg List.reverse hsplit
    rw [List.reverse_append, List.reverse_reverse] at this
    exact this.symm
  have hk : ds.length - (stripZeros ds).length
      = (List.takeWhile (fun c => c == '0') ds.reverse).length := by omega
  rw [hk]
  conv_rhs => rw [hrev]
  congr 1
  conv_rhs => rw [hzeros]
  rw [List.reverse_replicate]

theorem exponentText_ne_u (e : Int) : ∀ c ∈ (exponentText e).data, c ≠ 'u' := by
  intro c hc
  unfold exponentText at hc
  simp only [String.data_append, List.mem_append] at hc
  rcases hc with (hc | hc) | hc
  · have : c = 'e' := by simpa using hc
    rw [this]; decide
  · split_ifs at hc
    · have : c = '-' := by simpa using hc
      rw [this]; decide
    · have : c = '+' := by simpa using hc
      rw [this]; decide
  · exact toDigits_ne_u _ c hc

theorem exponentText_ne_empty (e : Int) : (exponentText e).data ≠ [] := by
  unfold exponentText
  simp [String.data_append]

theorem formatDecimal_ne_u (sd : List Char) (n : Int) (hsd : ∀ c ∈ sd, c ≠ 'u') :
    ∀ c ∈ (formatDecimal sd n).data, c ≠ 'u' := by
  intro c hc
  unfold formatDecimal at hc
  split_ifs at hc
  · rcases List.mem_append.mp hc with h | h
    · exact hsd c h
    · rw [(List.mem_replicate.mp h).2]; decide
  · rcases List.mem_append.mp hc with h | h
    · exact hsd c (List.mem_of_mem_take h)
    · rcases List.mem_cons.mp h with h | h
      · rw [h]; decide
      · exact hsd c (List.mem_of_mem_drop h)
  · rcases List.mem_cons.mp hc with h | h
    · rw [h]; decide
    · rcases List.mem_cons.mp h with h | h
      · rw [h]; decide
      · rcases List.mem_append.mp h with h | h
        · rw [(List.mem_replicate.mp h).2]; decide
        · exact hsd c h
  · split at hc
    · exact exponentText_ne_u _ c hc
    · rename_i d
      rw [String.data_append] at hc
      rcases List.mem_append.mp hc with h | h
      · exact hsd c (by simpa using h)
      · exact exponentText_ne_u _ c h
    · rename_i d rest _
      rw [String.data_append] at hc
      rcases List.mem_append.mp hc with h | h
      · rcases List.mem_cons.mp h with h | h
        · exact hsd c (by rw [h]; exact List.mem_cons_self _ _)
        · rcases List.mem_cons.mp h with h | h
          · rw [h]; decide
          · exact hsd c (List.mem_cons_of_mem _ h)
      · exact exponentText_ne_u _ c h

theorem formatDecimal_ne_empty (sd : List Char) (n : Int) (hsd : sd ≠ []) :
    (formatDecimal sd n).data ≠ [] := by
  unfold formatDecimal
  split_ifs
  · simp [hsd]
  · simp
  · simp
  · split
    · exact exponentText_ne_empty _
    · simp [String.data_append]
    · simp [String.data_append]

theorem signText_ne_u (negative : Bool) :
    ∀ c ∈ (if negative = true then "-" else "").data, c ≠ 'u' := by
  cases negative <;> decide

theorem numToStr_ne_u (x : JsNum) : ∀ c ∈ x.toStr.data, c ≠ 'u' := by
  intro c hc
  cases x with
  | infinity negative =>
    simp only [JsNum.toStr, String.data_append] at hc
    rcases List.mem_append.mp hc with h | h
    · exact signText_ne_u negative c h
    · exact (by decide : ∀ c ∈ "Infinity".data, c ≠ 'u') c h
  | finite negative digits exponent =>
    by_cases hz : digits = 0
    · simp only [JsNum.toStr, hz, if_true] at hc
      exact (by decide : ∀ c ∈ "0".data, c ≠ 'u') c hc
    · simp only [JsNum.toStr, hz, if_false, String.data_append] at hc
      rcases List.mem_append.mp hc with h | h
      · exact signText_ne_u negative c h
      · exact formatDecimal_ne_u _ _
          (fun c hc => toDigits_ne_u digits c (stripZeros_subset _ c hc)) c h

theorem numToStr_ne_empty (x : JsNum) : x.toStr ≠ "" := by
  intro hempty
  have hdata : x.toStr.data = [] := by rw [hempty]
  cases x with
  | infinity negative =>
    simp only [JsNum.toStr, String.data_append, List.append_eq_nil] at hdata
    exact absurd hdata.2 (by decide)
  | finite negative digits exponent =>
    by_cases hz : digits = 0
    · simp only [JsNum.toStr, hz, if_true] at hdata
      exact absurd hdata (by decide)
    · simp only [JsNum.toStr, hz, if_false, String.data_append, List.append_eq_nil] at hdata
      exact formatDecimal_ne_empty _ _
        (stripZeros_ne_nil _ (toDigitsCore_nonzero _ _ _ hz (by omega))) hdata.2

theorem numToStr_ne_undefined (x : JsNum) : x.toStr ≠ "undefined" := by
  intro hu
  exact numToStr_ne_u x 'u' (by rw [hu]; decide) rfl

theorem ofNat_toStr (n : Nat) (hn : n < 10 ^ 21) : (JsNum.ofNat n).toStr = toString n := by
  by_cases hz : n = 0
  · rw [hz]; rfl
  · have hlen : (Nat.toDigits 10 n).length ≤ 21 := by
      have := toDigitsCore_length (n + 1) n [] 21 (by decide) hn
      simpa [Nat.toDigits] using this
    have hsub : (stripZeros (Nat.toDigits 10 n)).length ≤ (Nat.toDigits 10 n).length := by
      have := congrArg List.length (stripZeros_append_zeros (Nat.toDigits 10 n))
      rw [List.length_append] at this
      omega
    have hcase : ((stripZeros (Nat.toDigits 10 n)).length : Int)
          ≤ ((Nat.toDigits 10 n).length : Int) + 0
        ∧ ((Nat.toDigits 10 n).length : Int) + 0 ≤ 21 := by
      constructor <;> omega
    have hk : (((Nat.toDigits 10 n).length : Int) + 0
        - ((stripZeros (Nat.toDigits 10 n)).length : Int)).toNat
        = (Nat.toDigits 10 n).length - (stripZeros (Nat.toDigits 10 n)).length := by
      omega
    simp only [JsNum.ofNat, JsNum.toStr, hz, if_false, Bool.false_eq_true]
    unfold formatDecimal
    rw [if_pos hcase, hk, stripZeros_append_zeros]
    apply String.ext
    rw [String.data_append]
    rfl

theorem numToStr_examples :
    (JsNum.ofNat 50).toStr = "50"
    ∧ (JsNum.finite false 25 (-1)).toStr = "2.5"
    ∧ (JsNum.finite false 1 (-1)).toStr = "0.1"
    ∧ (JsNum.finite false 1 21).toStr = "1e+21"
    ∧ (JsNum.finite false 1 (-7)).toStr = "1e-7"
    ∧ (JsNum.finite true 0 0).toStr = "0"
    ∧ (JsVal.arr []).text = ""
    ∧ (JsVal.arr [.str "a", .null, .arr [.num (.ofNat 1), .obj []]]).text = "a,,1,[object Object]" := by
  decide

/-! ## The success summary -/

theorem bind_ok {α β : Type} (x : Except String α) (f : α → Except String β) (b : β)
    (h : (x >>= f) = .ok b) : ∃ a, x = .ok a ∧ f a = .ok b := by
  cases x with
  | error e => simp [bind, Except.bind] at h
  | ok a => exact ⟨a, rfl, by simpa [bind, Except.bind] using h⟩

theorem toStringOf_ok (v : JsVal) (t : String) (h : toStringOf v = .ok t) :
    t = v.text ∧ v.throws = false := by
  unfold toStringOf at h
  split_ifs at h with hthrows
  simp only [Except.ok.injEq] at h
  exact ⟨h.symm, by simpa using hthrows⟩

theorem templateOr_ok (v : JsVal) (fallback t : String) (h : templateOr v fallback = .ok t) :
    t = orElse v fallback ∧ (v.truthy = true → v.throws = false) := by
  unfold templateOr at h
  unfold orElse
  split_ifs at h ⊢ with htruthy
  · obtain ⟨ht, hthrows⟩ := toStringOf_ok v t h
    exact ⟨ht, fun _ => hthrows⟩
  · simp only [Except.ok.injEq] at h
    exact ⟨h.symm, fun hc => absurd hc htruthy⟩

theorem detailLines_ok (d count : JsVal) (details : String) (hnn : d.nullish = false)
    (h : detailLines d count = .ok details) :
    details = "• Invoice #: " ++ orElse (d.get .Invoice_Number) "Not found" ++ "\n"
      ++ "• Date: " ++ orElse (d.get .Invoice_Date) "Not found" ++ "\n"
      ++ "• Vendor: " ++ orElse (d.get .Vendor_Name) "Not found" ++ "\n"
      ++ "• Vendor GSTIN: " ++ orElse (d.get .Vendor_GSTIN) "Not found" ++ "\n"
      ++ "• Buyer: " ++ orElse (d.get .Buyer_Name) "Not found" ++ "\n"
      ++ "• Items: " ++ count.text ++ " line item(s)\n" := by
  unfold detailLines at h
  simp only [fun key => getProp_of_not_nullish d key hnn, bind, Except.bind] at h
  obtain ⟨t1, h1, h⟩ := bind_ok _ _ _ h
  obtain ⟨t2, h2, h⟩ := bind_ok _ _ _ h
  obtain ⟨t3, h3, h⟩ := bind_ok _ _ _ h
  obtain ⟨t4, h4, h⟩ := bind_ok _ _ _ h
  obtain ⟨t5, h5, h⟩ := bind_ok _ _ _ h
  obtain ⟨t6, h6, h⟩ := bind_ok _ _ _ h
  rw [← (templateOr_ok _ _ _ h1).1, ← (templateOr_ok _ _ _ h2).1, ← (templateOr_ok _ _ _ h3).1,
    ← (templateOr_ok _ _ _ h4).1, ← (templateOr_ok _ _ _ h5).1, ← (toStringOf_ok _ _ h6).1]
  simpa [pure, Except.pure] using h.symm

theorem responseMessage_ok (fileName : String) (d : JsVal) (text : String)
    (h : responseMessage fileName d = .ok text) :
    d.nullish = false
    ∧ ∃ details lineItems,
        detailLines d (itemsCount (d.get .Items)) = .ok details
        ∧ lineItemsSection (d.get .Items) = .ok lineItems
        ∧ text = "✅ Successfully extracted data from " ++ fileName
            ++ "!\n\n📋 **Invoice Details:**\n" ++ details ++ lineItems
            ++ "\nData has been saved to the database. You can approve or reject this processing." := by
  unfold responseMessage at h
  obtain ⟨items, h1, h⟩ := bind_ok _ _ _ h
  obtain ⟨hnn, hitems⟩ := getProp_ok _ _ _ h1
  subst hitems
  obtain ⟨details, h2, h⟩ := bind_ok _ _ _ h
  obtain ⟨lineItems, h3, h⟩ := bind_ok _ _ _ h
  refine ⟨hnn, details, lineItems, h2, h3, ?_⟩
  simpa [pure, Except.pure] using h.symm

theorem uploadInvoice_ok_status (status : Nat) (body : JsVal)
    (hlo : 200 ≤ status) (hhi : status ≤ 299) :
    uploadInvoice (.resolved ⟨status, .parsed body⟩) = .ok body := by
  simp [uploadInvoice, Response.ok, hlo, hhi]

theorem uploadInvoice_resolved_ok (status : Nat) (body result : JsVal)
    (h : uploadInvoice (.resolved ⟨status, .parsed body⟩) = .ok result) :
    200 ≤ status ∧ status ≤ 299 ∧ result = body := by
  unfold uploadInvoice at h
  by_cases hok : Response.ok ⟨status, .parsed body⟩ = true
  · simp only [hok, Bool.not_true, Bool.false_eq_true, if_false, Except.ok.injEq] at h
    simp only [Response.ok, Bool.and_eq_true, decide_eq_true_eq] at hok
    exact ⟨hok.1, hok.2, h.symm⟩
  · simp [hok] at h

theorem summary_of_tryBlock (file : File) (status : Nat) (body : JsVal) (msg : Message)
    (h : tryBlock file (.resolved ⟨status, .parsed body⟩) = .ok msg) :
    (200 ≤ status ∧ status ≤ 299)
    ∧ body.nullish = false
    ∧ (body.get .success).truthy = true
    ∧ responseMessage file.name (body.get .data) = .ok msg.content
    ∧ msg.type = .bot
    ∧ msg.invoiceData = body.get .data
    ∧ msg.fileHash = body.get .file_hash := by
  obtain ⟨result, content, hup, hnn, hsucc, hresp, hmsg⟩ := tryBlock_ok _ _ _ h
  obtain ⟨hlo, hhi, hbody⟩ := uploadInvoice_resolved_ok status body result hup
  subst hbody
  subst hmsg
  exact ⟨⟨hlo, hhi⟩, hnn, hsucc, hresp, rfl, rfl, rfl⟩

theorem truthy_iff (v : JsVal) :
    v.truthy = true ↔
      (∃ s, v = .str s ∧ s ≠ "") ∨ (∃ n, v = .num n ∧ n.isZero = false) ∨ v = .bool true
        ∨ (∃ items, v = .arr items) ∨ (∃ fields, v = .obj fields) := by
  cases v <;> simp [JsVal.truthy]

theorem orElse_ne_empty (v : JsVal) (hscalar : (∃ s, v = .str s) ∨ (∃ n, v = .num n)
    ∨ (∃ b, v = .bool b) ∨ v = .undefined ∨ v = .null) :
    orElse v "Not found" ≠ "" := by
  unfold orElse
  rcases hscalar with ⟨s, rfl⟩ | ⟨n, rfl⟩ | ⟨b, rfl⟩ | rfl | rfl
  · by_cases hs : s = ""
    · subst hs; decide
    · simp [JsVal.truthy, JsVal.text, hs]
  · split_ifs
    · exact numToStr_ne_empty n
    · decide
  · cases b <;> decide
  · decide
  · decide

theorem orElse_eq_undefined (v : JsVal) (hscalar : (∃ s, v = .str s) ∨ (∃ n, v = .num n)
    ∨ (∃ b, v = .bool b) ∨ v = .undefined ∨ v = .null)
    (h : orElse v "Not found" = "undefined") : v = .str "undefined" := by
  unfold orElse at h
  rcases hscalar with ⟨s, rfl⟩ | ⟨n, rfl⟩ | ⟨b, rfl⟩ | rfl | rfl
  · split_ifs at h
    · simp only [JsVal.text] at h
      rw [h]
    · exact absurd h (by decide)
  · split_ifs at h
    · exact absurd h (numToStr_ne_undefined n)
    · exact absurd h (by decide)
  · cases b <;> exact absurd h (by decide)
  · exact absurd h (by decide)
  · exact absurd h (by decide)

/-- C4 as stated fails on success responses: a present invoice number `0` is
shown as `Not found`, not as its value; a date holding the text `undefined` is
shown as `undefined`; a vendor name `[]` is shown as the empty text; and when
`Items` is the text `N/A` no summary is produced at all, the bot message being
the failure explanation. -/
theorem summary_field_present_not_shown :
    sampleFalsyInvoice.get .Invoice_Number = .num (.ofNat 0)
    ∧ includes (terminalMessage sampleFile (okResponse (successBody sampleFalsyInvoice))).content
        "• Invoice #: Not found\n" = true
    ∧ includes (terminalMessage sampleFile (okResponse (successBody sampleFalsyInvoice))).content
        "• Invoice #: 0\n" = false
    ∧ sampleFalsyInvoice.get .Invoice_Date = .str "undefined"
    ∧ includes (terminalMessage sampleFile (okResponse (successBody sampleFalsyInvoice))).content
        "• Date: undefined\n" = true
    ∧ sampleFalsyInvoice.get .Vendor_Name = .arr []
    ∧ includes (terminalMessage sampleFile (okResponse (successBody sampleFalsyInvoice))).content
        "• Vendor: \n" = true
    ∧ (terminalMessage sampleFile (okResponse (successBody sampleTextItemsInvoice))).content
        = "❌ Failed to process a.pdf.\n\nError: invoiceData.Items.forEach is not a function\n\nPlease try again with a clearer image or different format." :=
  ⟨rfl, by decide!, by decide!, rfl, by decide!, rfl, by decide!, by decide!⟩

/-- C4, amended: for a response for which the `try` block produces the summary
(it then has a 2xx status and a truthy `success`), the bot message is that
summary and it contains,
for each of the five fields of `data`, the label followed by the text of the
field's value when the value is truthy (a non-empty string, a non-zero number,
`true`, an array or an object) and by exactly `Not found` when the field is
missing, `null` or another falsy value; when the value is a string, a number or
a boolean the text after the label is never empty, and it is `undefined` only
when the field holds that very text. -/
theorem summary_field_lines (file : File) (status : Nat) (body : JsVal) (msg : Message)
    (hsummary : tryBlock file (.resolved ⟨status, .parsed body⟩) = .ok msg) :
    terminalMessage file (.resolved ⟨status, .parsed body⟩) = msg
    ∧ msg.type = .bot
    ∧ (200 ≤ status ∧ status ≤ 299)
    ∧ (body.get .success).truthy = true
    ∧ msg.invoiceData = body.get .data
    ∧ includes msg.content
        ("• Invoice #: " ++ orElse ((body.get .data).get .Invoice_Number) "Not found" ++ "\n") = true
    ∧ includes msg.content
        ("• Date: " ++ orElse ((body.get .data).get .Invoice_Date) "Not found" ++ "\n") = true
    ∧ includes msg.content
        ("• Vendor: " ++ orElse ((body.get .data).get .Vendor_Name) "Not found" ++ "\n") = true
    ∧ includes msg.content
        ("• Vendor GSTIN: " ++ orElse ((body.get .data).get .Vendor_GSTIN) "Not found" ++ "\n") = true
    ∧ includes msg.content
        ("• Buyer: " ++ orElse ((body.get .data).get .Buyer_Name) "Not found" ++ "\n") = true
    ∧ (∀ v : JsVal,
        (v.truthy = true → orElse v "Not found" = v.text)
        ∧ (v.truthy = false → orElse v "Not found" = "Not found")
        ∧ (v = .undefined ∨ v = .null → orElse v "Not found" = "Not found")
        ∧ (v.truthy = true ↔
            (∃ s, v = .str s ∧ s ≠ "") ∨ (∃ n, v = .num n ∧ n.isZero = false) ∨ v = .bool true
              ∨ (∃ items, v = .arr items) ∨ (∃ fields, v = .obj fields))
        ∧ ((∃ s, v = .str s) ∨ (∃ n, v = .num n) ∨ (∃ b, v = .bool b)
              ∨ v = .undefined ∨ v = .null →
            orElse v "Not found" ≠ ""
            ∧ (orElse v "Not found" = "undefined" → v = .str "undefined"))) := by
  obtain ⟨hstatus, hnn, hsucc, hresp, htype, hdata, -⟩ :=
    summary_of_tryBlock file status body msg hsummary
  obtain ⟨hdnn, details, lineItems, hdetails, -, htext⟩ := responseMessage_ok _ _ _ hresp
  have hlines := detailLines_ok _ _ _ hdnn hdetails
  rw [hlines] at htext
  refine ⟨terminalMessage_of_ok _ _ _ hsummary, htype, hstatus, hsucc, hdata,
    ?_, ?_, ?_, ?_, ?_, ?_⟩
  · rw [htext]
    simp only [String.append_assoc]
    repeat' (first | with_reducible exact includes_head3 _ _ _ _ | with_reducible apply includes_append_left)
  · rw [htext]
    simp only [String.append_assoc]
    repeat' (first | with_reducible exact includes_head3 _ _ _ _ | with_reducible apply includes_append_left)
  · rw [htext]
    simp only [String.append_assoc]
    repeat' (first | with_reducible exact includes_head3 _ _ _ _ | with_reducible apply includes_append_left)
  · rw [htext]
    simp only [String.append_assoc]
    repeat' (first | with_reducible exact includes_head3 _ _ _ _ | with_reducible apply includes_append_left)
  · rw [htext]
    simp only [String.append_assoc]
    repeat' (first | with_reducible exact includes_head3 _ _ _ _ | with_reducible apply includes_append_left)
  · intro v
    refine ⟨fun h => by simp [orElse, h], fun h => by simp [orElse, h], ?_, truthy_iff v, ?_⟩
    · rintro (h | h) <;> subst h <;> rfl
    · intro hscalar
      exact ⟨orElse_ne_empty v hscalar, orElse_eq_undefined v hscalar⟩

/-- Witness of amended C4: the summary of the widget invoice shows the invoice
number `INV-1`. -/
theorem summary_field_lines_witness :
    includes (terminalMessage sampleFile (okResponse (successBody sampleWidgetInvoice))).content
      "• Invoice #: INV-1\n" = true :=
  (summary_field_lines sampleFile 200 (successBody sampleWidgetInvoice)
    (terminalMessage sampleFile (okResponse (successBody sampleWidgetInvoice)))
    rfl).2.2.2.2.2.1

/-! ## Line items -/

theorem foldl_append_eq (acc : String) (l : List String) :
    l.foldl (fun r s => r ++ s) acc = acc ++ l.foldl (fun r s => r ++ s) "" := by
  induction l generalizing acc with
  | nil => simp
  | cons a l ih =>
    simp only [List.foldl_cons]
    rw [ih (acc ++ a), ih ("" ++ a)]
    simp [String.append_assoc]

theorem join_cons (a : String) (l : List String) :
    String.join (a :: l) = a ++ String.join l := by
  unfold String.join
  rw [List.foldl_cons, foldl_append_eq]
  simp

theorem includes_self (s : String) : includes s s = true :=
  (includes_iff _ _).mpr ⟨"", "", by simp⟩

theorem annotation_ok (v : JsVal) (before after t : String)
    (h : annotation v before after = .ok t) :
    t = if v.truthy then before ++ v.text ++ after else "" := by
  unfold annotation at h
  split_ifs at h ⊢ with htruthy
  · cases ht : toStringOf v with
    | error e => simp [ht] at h
    | ok text =>
      simp only [ht, Except.ok.injEq] at h
      rw [← h, (toStringOf_ok v text ht).1]
  · simp only [Except.ok.injEq] at h
    exact h.symm

theorem lineItemText_ok (index : Nat) (item : JsVal) (line : String)
    (h : lineItemText index item = .ok line) :
    item.nullish = false
    ∧ line = if (item.get .Items).truthy then
        (JsNum.ofNat (index + 1)).toStr ++ ". " ++ (item.get .Items).text
          ++ (if (item.get .Qty).truthy then " (Qty: " ++ (item.get .Qty).text ++ ")" else "")
          ++ (if (item.get .Rate).truthy then " @ ₹" ++ (item.get .Rate).text else "")
          ++ "\n"
      else "" := by
  unfold lineItemText at h
  obtain ⟨description, h1, h⟩ := bind_ok _ _ _ h
  obtain ⟨hnn, hdesc⟩ := getProp_ok _ _ _ h1
  subst hdesc
  refine ⟨hnn, ?_⟩
  by_cases htruthy : (item.get .Items).truthy = true
  · rw [if_pos htruthy] at h ⊢
    simp only [fun key => getProp_of_not_nullish item key hnn] at h
    obtain ⟨text, h2, h⟩ := bind_ok _ _ _ h
    obtain ⟨qty, h3, h⟩ := bind_ok _ _ _ h
    simp only [Except.ok.injEq] at h3
    subst h3
    obtain ⟨qtyText, h4, h⟩ := bind_ok _ _ _ h
    obtain ⟨rate, h5, h⟩ := bind_ok _ _ _ h
    simp only [Except.ok.injEq] at h5
    subst h5
    obtain ⟨rateText, h6, h⟩ := bind_ok _ _ _ h
    have hq := annotation_ok _ _ _ _ h4
    have hr := annotation_ok _ _ _ _ h6
    simp only [String.append_empty] at hr
    rw [← (toStringOf_ok _ _ h2).1, ← hq, ← hr]
    simpa [pure, Except.pure] using h.symm
  · rw [if_neg htruthy] at h ⊢
    simpa [pure, Except.pure] using h.symm

theorem lineItemsFrom_ok (index : Nat) (items : List JsVal) (text : String)
    (h : lineItemsFrom index items = .ok text) :
    (∀ item ∈ items, item.nullish = false)
    ∧ text = String.join
      (((items.enumFrom index).filter (fun p => (p.2.get .Items).truthy)).map (fun p =>
        (JsNum.ofNat (p.1 + 1)).toStr ++ ". " ++ (p.2.get .Items).text
          ++ (if (p.2.get .Qty).truthy then " (Qty: " ++ (p.2.get .Qty).text ++ ")" else "")
          ++ (if (p.2.get .Rate).truthy then " @ ₹" ++ (p.2.get .Rate).text else "")
          ++ "\n")) := by
  induction items generalizing index text with
  | nil =>
    simp only [lineItemsFrom, Except.ok.injEq] at h
    exact ⟨by simp, by rw [← h]; rfl⟩
  | cons item rest ih =>
    rw [lineItemsFrom] at h
    obtain ⟨line, h1, h⟩ := bind_ok _ _ _ h
    obtain ⟨more, h2, h⟩ := bind_ok _ _ _ h
    obtain ⟨hnn, hline⟩ := lineItemText_ok _ _ _ h1
    obtain ⟨hrest, hmore⟩ := ih (index + 1) more h2
    have htext : text = line ++ more := by simpa [pure, Except.pure] using h.symm
    refine ⟨?_, ?_⟩
    · intro x hx
      rcases List.mem_cons.mp hx with hx | hx
      · rw [hx]; exact hnn
      · exact hrest x hx
    · rw [htext, hmore, hline, List.enumFrom_cons]
      cases htruthy : (item.get .Items).truthy
      · simp [List.filter_cons, htruthy]
      · simp [List.filter_cons, htruthy, join_cons]

theorem filter_enumFrom_length (index : Nat) (items : List JsVal) :
    ((items.enumFrom index).filter (fun p => (p.2.get .Items).truthy)).length
      = (items.filter (fun item => (item.get .Items).truthy)).length := by
  induction items generalizing index with
  | nil => rfl
  | cons item rest ih =>
    rw [List.enumFrom_cons]
    cases h : (item.get .Items).truthy
    · simp [List.filter_cons, h, ih (index + 1)]
    · simp [List.filter_cons, h, ih (index + 1)]

theorem itemsCount_arr (items : List JsVal) (hne : items ≠ []) :
    itemsCount (.arr items) = .num (.ofNat items.length) := by
  have hlen : items.length ≠ 0 := by simpa using hne
  simp [itemsCount, JsVal.nullish, lengthOf, JsVal.truthy, JsNum.isZero, JsNum.ofNat, hlen]

theorem lineItemsSection_arr (items : List JsVal) (hne : items ≠ []) (text : String)
    (h : lineItemsSection (.arr items) = .ok text) :
    ∃ lines, lineItemsFrom 0 items = .ok lines ∧ text = "\n**Line Items:**\n" ++ lines := by
  have hlen : items.length ≠ 0 := by simpa using hne
  unfold lineItemsSection at h
  rw [itemsCount_arr items hne] at h
  simp only [greaterThanZero, JsNum.positive, JsNum.ofNat] at h
  obtain ⟨positive, h1, h⟩ := bind_ok _ _ _ h
  simp only [Except.ok.injEq] at h1
  have hpos : positive = true := by rw [← h1]; simp [hlen]
  rw [hpos] at h
  simp only [if_true] at h
  obtain ⟨lines, h2, h⟩ := bind_ok _ _ _ h
  exact ⟨lines, h2, by simpa [pure, Except.pure] using h.symm⟩

/-- C5 as stated fails on success responses: of three items the one without a
description gets no line although it is counted, the numbering skips its
position, and the item whose quantity is `0` gets no quantity annotation; and
when an element of `Items` is `null` no summary is produced at all, the bot
message being the failure explanation. -/
theorem line_items_skipped_and_unannotated :
    includes (terminalMessage sampleFile (okResponse (successBody sampleSparseInvoice))).content
        "• Items: 3 line item(s)\n" = true
    ∧ includes (terminalMessage sampleFile (okResponse (successBody sampleSparseInvoice))).content
        "\n**Line Items:**\n2. Widget @ ₹50\n3. Cable (Qty: 2.5) @ ₹0.1\n\nData has been saved"
        = true
    ∧ (terminalMessage sampleFile (okResponse (successBody sampleNullItemInvoice))).content
        = "❌ Failed to process a.pdf.\n\nError: Cannot read properties of null (reading 'Items')\n\nPlease try again with a clearer image or different format." :=
  ⟨by decide!, by decide!, by decide!⟩

/-- C5, amended: for a response whose `Items` is a non-empty array and for which
the `try` block produces the summary (it then has a 2xx status and a truthy
`success`, and no element of `Items` is `null`), the summary shows the length of `Items` as the count and
holds a `**Line Items:**` section made, in `Items` order, of one line for each
item whose description is truthy and of nothing else; the line of the item at
1-based position `k` is `<k>. <description>`, followed by ` (Qty: <qty>)` exactly
when the quantity is truthy and by ` @ ₹<rate>` exactly when the rate is truthy.
The number of numbered lines is at most the count and equals it when every item
has a truthy description; the item `{Items:"Widget",Qty:3,Rate:50}` alone yields
the line `1. Widget (Qty: 3) @ ₹50`. -/
theorem line_items_section (file : File) (status : Nat) (body : JsVal) (msg : Message)
    (items : List JsVal)
    (hsummary : tryBlock file (.resolved ⟨status, .parsed body⟩) = .ok msg)
    (hitems : (body.get .data).get .Items = .arr items) (hne : items ≠ []) :
    terminalMessage file (.resolved ⟨status, .parsed body⟩) = msg
    ∧ (200 ≤ status ∧ status ≤ 299)
    ∧ (body.get .success).truthy = true
    ∧ includes msg.content
        ("• Items: " ++ (JsNum.ofNat items.length).toStr ++ " line item(s)\n") = true
    ∧ (∀ n : Nat, n < 10 ^ 21 → (JsNum.ofNat n).toStr = toString n)
    ∧ (∀ item ∈ items, item ≠ .null ∧ item ≠ .undefined)
    ∧ includes msg.content
        ("\n**Line Items:**\n" ++ String.join
          (((items.enumFrom 0).filter (fun p => (p.2.get .Items).truthy)).map (fun p =>
            (JsNum.ofNat (p.1 + 1)).toStr ++ ". " ++ (p.2.get .Items).text
              ++ (if (p.2.get .Qty).truthy then " (Qty: " ++ (p.2.get .Qty).text ++ ")" else "")
              ++ (if (p.2.get .Rate).truthy then " @ ₹" ++ (p.2.get .Rate).text else "")
              ++ "\n"))
          ++ "\nData has been saved to the database. You can approve or reject this processing.")
        = true
    ∧ ((items.enumFrom 0).filter (fun p => (p.2.get .Items).truthy)).length ≤ items.length
    ∧ ((∀ item ∈ items, (item.get .Items).truthy = true) →
        ((items.enumFrom 0).filter (fun p => (p.2.get .Items).truthy)).length = items.length)
    ∧ (items = [widgetItem] →
        includes msg.content
          ("\n**Line Items:**\n" ++ "1. Widget (Qty: 3) @ ₹50" ++ "\n"
            ++ "\nData has been saved to the database. You can approve or reject this processing.")
          = true) := by
  obtain ⟨hstatus, hnn, hsucc, hresp, htype, hdata, -⟩ :=
    summary_of_tryBlock file status body msg hsummary
  obtain ⟨hdnn, details, lineItems, hdetails, hsection, htext⟩ := responseMessage_ok _ _ _ hresp
  have hlines := detailLines_ok _ _ _ hdnn hdetails
  rw [hitems] at hsection hlines
  rw [itemsCount_arr items hne] at hlines
  obtain ⟨lines, hfrom, hsec⟩ := lineItemsSection_arr items hne lineItems hsection
  obtain ⟨hitemsnn, hjoin⟩ := lineItemsFrom_ok 0 items lines hfrom
  have hsectionIncluded : includes msg.content
      ("\n**Line Items:**\n" ++ lines
        ++ "\nData has been saved to the database. You can approve or reject this processing.")
      = true := by
    rw [htext, hsec]
    simp only [String.append_assoc]
    repeat' (first | with_reducible exact includes_self _ | with_reducible apply includes_append_left)
  refine ⟨terminalMessage_of_ok _ _ _ hsummary, hstatus, hsucc, ?_, ofNat_toStr, ?_, ?_, ?_, ?_, ?_⟩
  · rw [htext, hlines]
    simp only [String.append_assoc, JsVal.text]
    repeat' (first | with_reducible exact includes_head3 _ _ _ _ | with_reducible apply includes_append_left)
  · intro item hitem
    have := hitemsnn item hitem
    constructor <;> intro h <;> rw [h] at this <;> simp [JsVal.nullish] at this
  · rw [← hjoin]
    exact hsectionIncluded
  · rw [filter_enumFrom_length]
    exact List.length_filter_le _ _
  · intro hall
    rw [filter_enumFrom_length, List.filter_eq_self.mpr hall]
  · intro hw
    subst hw
    have hwidget : lines = "1. Widget (Qty: 3) @ ₹50" ++ "\n" := by
      rw [hjoin]; decide
    rw [hwidget] at hsectionIncluded
    simpa only [String.append_assoc] using hsectionIncluded

/-- Witness of amended C5: the summary of the invoice whose only item is the
widget. -/
theorem line_items_section_witness :
    includes (terminalMessage sampleFile (okResponse (successBody sampleWidgetInvoice))).content
      ("\n**Line Items:**\n" ++ "1. Widget (Qty: 3) @ ₹50" ++ "\n"
        ++ "\nData has been saved to the database. You can approve or reject this processing.")
      = true :=
  (line_items_section sampleFile 200 (successBody sampleWidgetInvoice)
    (terminalMessage sampleFile (okResponse (successBody sampleWidgetInvoice))) [widgetItem]
    rfl rfl (List.cons_ne_nil _ _)).2.2.2.2.2.2.2.2.2 rfl

/-! ## The failure explanation -/

theorem errorSection_rate_limit (m : String) (hkey : includes m "API key" = false)
    (hrate : includes m "Rate limit" = true) :
    errorSection m = "\n\nError: API rate limit reached. Please try again in a few minutes." := by
  simp [errorSection, hkey, hrate]

theorem errorSection_raw (m : String) (hkey : includes m "API key" = false)
    (hrate : includes m "Rate limit" = false) (hlarge : includes m "File too large" = false)
    (htype : includes m "File type not supported" = false) :
    errorSection m = "\n\nError: " ++ m := by
  simp [errorSection, hkey, hrate, hlarge, htype]

/-- C6 as stated fails: an error message that contains both `Rate limit` and
`API key` gets the API-key explanation, and the rate-limit explanation is absent
from the bot message. -/
theorem rate_limit_shadowed_by_api_key :
    includes "Rate limit exceeded for API key" "Rate limit" = true
    ∧ errorMessage "a.pdf" "Rate limit exceeded for API key"
        = "❌ Failed to process a.pdf.\n\nError: OpenAI API key not configured. Please contact administrator.\n\nPlease try again with a clearer image or different format."
    ∧ includes (errorMessage "a.pdf" "Rate limit exceeded for API key")
        "Error: API rate limit reached. Please try again in a few minutes." = false := by
  decide!

/-- C6, amended: for every failed upload whose error message contains
`Rate limit` and does not contain `API key`, the appended bot message contains
the tailored rate-limit explanation, and its `Error:` section is that tailored
text, not the raw error message. -/
theorem rate_limit_explanation (file : File) (fr : FetchResult) (m : String)
    (hfail : tryBlock file fr = .error m)
    (hrate : includes m "Rate limit" = true) (hkey : includes m "API key" = false) :
    (terminalMessage file fr).type = .bot
    ∧ (terminalMessage file fr).content
        = "❌ Failed to process " ++ file.name ++ "."
          ++ "\n\nError: API rate limit reached. Please try again in a few minutes."
          ++ "\n\nPlease try again with a clearer image or different format."
    ∧ includes (terminalMessage file fr).content
        "Error: API rate limit reached. Please try again in a few minutes." = true
    ∧ errorSection m = "\n\nError: API rate limit reached. Please try again in a few minutes."
    ∧ errorSection m ≠ "\n\nError: " ++ m := by
  have hsec := errorSection_rate_limit m hkey hrate
  have hcontent : (terminalMessage file fr).content
      = "❌ Failed to process " ++ file.name ++ "."
        ++ "\n\nError: API rate limit reached. Please try again in a few minutes."
        ++ "\n\nPlease try again with a clearer image or different format." := by
    rw [terminalMessage_of_error file fr m hfail]
    simp only [plainMessage, errorMessage, hsec, retrySuggestion]
  refine ⟨terminalMessage_type file fr, hcontent, ?_, hsec, ?_⟩
  · rw [hcontent]
    have hsplit : "\n\nError: API rate limit reached. Please try again in a few minutes."
        = "\n\n" ++ "Error: API rate limit reached. Please try again in a few minutes." := by
      decide
    rw [hsplit]
    simp only [String.append_assoc]
    repeat' (first | with_reducible exact includes_head _ _ | with_reducible apply includes_append_left)
  · intro heq
    rw [hsec] at heq
    have hsplit : "\n\nError: API rate limit reached. Please try again in a few minutes."
        = "\n\nError: " ++ "API rate limit reached. Please try again in a few minutes." := by
      decide
    rw [hsplit] at heq
    have hm := append_left_cancel _ _ _ heq
    rw [← hm] at hrate
    exact absurd hrate (by decide!)

/-- Witness of amended C6: the request is rejected with the message
`Rate limit exceeded`. -/
theorem rate_limit_explanation_witness :
    (terminalMessage sampleFile (.rejected "Rate limit exceeded")).content
      = "❌ Failed to process " ++ sampleFile.name ++ "."
        ++ "\n\nError: API rate limit reached. Please try again in a few minutes."
        ++ "\n\nPlease try again with a clearer image or different format." :=
  (rate_limit_explanation sampleFile (.rejected "Rate limit exceeded") "Rate limit exceeded"
    rfl (by decide!) (by decide!)).2.1

/-- C7: every failure message starts with `❌ Failed to process <name>.` and
ends with the retry suggestion; when the error message contains none of the four
known substrings the content is exactly the prefix, `Error: <message>` and the
suggestion, so it contains the message. A 2xx response with `success: false`
fails with the body's `message` when that is a non-empty string and with
`Processing failed` when it is absent, `null` or empty. -/
theorem failure_message_shape (file : File) (m : String) :
    (∃ rest, errorMessage file.name m = "❌ Failed to process " ++ file.name ++ "." ++ rest)
    ∧ (∃ body, errorMessage file.name m
        = body ++ "\n\nPlease try again with a clearer image or different format.")
    ∧ (includes m "API key" = false → includes m "Rate limit" = false →
        includes m "File too large" = false → includes m "File type not supported" = false →
        errorMessage file.name m
          = "❌ Failed to process " ++ file.name ++ ".\n\nError: " ++ m
            ++ "\n\nPlease try again with a clearer image or different format."
        ∧ includes (errorMessage file.name m) m = true)
    ∧ (∀ fr, tryBlock file fr = .error m →
        (terminalMessage file fr).type = .bot
        ∧ (terminalMessage file fr).content = errorMessage file.name m)
    ∧ (∀ (status : Nat) (body : JsVal),
        200 ≤ status → status ≤ 299 → body.get .success = .bool false →
        tryBlock file (.resolved ⟨status, .parsed body⟩) = .error (processingFailure body)
        ∧ (∀ s, body.get .message = .str s → s ≠ "" → processingFailure body = s)
        ∧ (body.get .message = .undefined ∨ body.get .message = .null
              ∨ body.get .message = .str "" →
            processingFailure body = "Processing failed")
        ∧ (body.get .message = .str "Processing failed" →
            includes (terminalMessage file (.resolved ⟨status, .parsed body⟩)).content
              "Processing failed" = true)) := by
  refine ⟨⟨errorSection m ++ retrySuggestion, ?_⟩, ⟨_, rfl⟩, ?_, ?_, ?_⟩
  · simp only [errorMessage, String.append_assoc]
  · intro hkey hrate hlarge htype
    have hsec := errorSection_raw m hkey hrate hlarge htype
    have hdot : ".\n\nError: " = "." ++ "\n\nError: " := by decide
    constructor
    · simp only [errorMessage, hsec, retrySuggestion, hdot, String.append_assoc]
    · simp only [errorMessage, hsec, retrySuggestion, String.append_assoc]
      repeat' (first | with_reducible exact includes_head _ _ | with_reducible apply includes_append_left)
  · intro fr hfail
    rw [terminalMessage_of_error file fr m hfail]
    exact ⟨rfl, rfl⟩
  · intro status body hlo hhi hsuccess
    have hnn : body.nullish = false :=
      not_nullish_of_get body .success (by rw [hsuccess]; simp)
    have htry : tryBlock file (.resolved ⟨status, .parsed body⟩)
        = .error (processingFailure body) := by
      simp [tryBlock, uploadInvoice, Response.ok, hlo, hhi,
        getProp_of_not_nullish _ _ hnn, hsuccess, JsVal.truthy]
    have hfailure : ∀ s, body.get .message = .str s → s ≠ "" → processingFailure body = s := by
      intro s hs hne
      simp [processingFailure, getProp_of_not_nullish _ _ hnn, hs, JsVal.truthy, toStringOf,
        JsVal.throws, JsVal.text, hne]
    refine ⟨htry, hfailure, ?_, ?_⟩
    · rintro (h | h | h) <;>
        simp [processingFailure, getProp_of_not_nullish _ _ hnn, h, JsVal.truthy]
    · intro hmsg
      rw [terminalMessage_of_error _ _ _ htry]
      have hpf : processingFailure body = "Processing failed" :=
        hfailure _ hmsg (by decide)
      have hsec : errorSection "Processing failed" = "\n\nError: " ++ "Processing failed" :=
        errorSection_raw _ (by decide!) (by decide!) (by decide!) (by decide!)
      simp only [plainMessage, errorMessage, hpf, hsec, String.append_assoc]
      repeat' (first | with_reducible exact includes_head _ _ | with_reducible apply includes_append_left)

/-- Witness of C7: the response `{success:false, message:"Processing failed"}`
with status 200. -/
theorem failure_message_shape_witness :
    errorMessage sampleFile.name "Processing failed"
      = "❌ Failed to process " ++ sampleFile.name ++ ".\n\nError: " ++ "Processing failed"
        ++ "\n\nPlease try again with a clearer image or different format."
    ∧ includes (terminalMessage sampleFile
        (okResponse sampleFailureBody)).content "Processing failed" = true :=
  ⟨((failure_message_shape sampleFile "Processing failed").2.2.1
      (by decide!) (by decide!) (by decide!) (by decide!)).1,
   ((failure_message_shape sampleFile "Processing failed").2.2.2.2 200 sampleFailureBody
      (by decide) (by decide) rfl).2.2.2 rfl⟩

/-! ## The `isProcessing` flag along a run of `handleFileUpload` -/

theorem uploadSteps_succ (k : Nat) (r : UploadRun) :
    uploadSteps (k + 1) r = uploadStep (uploadSteps k r) := by
  induction k generalizing r with
  | zero => rfl
  | succ k ih =>
    show uploadSteps (k + 1) (uploadStep r) = _
    rw [ih (uploadStep r)]
    rfl

theorem uploadStep_awaiting (r : UploadRun) (file : File) (fr : FetchResult)
    (queue : List (File × FetchResult)) (h : (uploadStep r).pc = .awaiting file fr queue) :
    (uploadStep r).state.isProcessing = true
    ∧ ∃ before, (uploadStep r).state.messages
        = before ++ [uploadedMessage file, processingMessage file] := by
  obtain ⟨state, pc⟩ := r
  cases pc with
  | loopHead jobs =>
    cases jobs with
    | nil => simp [uploadStep] at h
    | cons job rest =>
      obtain ⟨f, o⟩ := job
      simp only [uploadStep, UploadPc.awaiting.injEq] at h
      obtain ⟨hf, -, -⟩ := h
      subst hf
      exact ⟨rfl, state.messages, by simp [uploadStep, announceFile]⟩
  | awaiting f o q => simp [uploadStep] at h
  | finished => simp [uploadStep] at h

theorem uploadSteps_finished (jobs : List (File × FetchResult)) (s : ConversationState) :
    uploadSteps (2 * jobs.length + 1) (startUpload jobs s)
      = { state := handleFileUpload jobs s, pc := .finished } := by
  induction jobs generalizing s with
  | nil => rfl
  | cons job rest ih =>
    obtain ⟨file, fr⟩ := job
    have hlen : 2 * ((file, fr) :: rest).length + 1 = (2 * rest.length + 1) + 1 + 1 := by
      simp [List.length_cons]; omega
    rw [hlen]
    exact ih (settleFile file fr (announceFile file s))

theorem uploadSteps_in_flight (jobs : List (File × FetchResult)) (s : ConversationState)
    (i : Nat) (file : File) (fr : FetchResult) (hi : jobs[i]? = some (file, fr)) :
    uploadSteps (2 * i + 1) (startUpload jobs s)
      = { state := announceFile file (handleFileUpload (jobs.take i) s),
          pc := .awaiting file fr (jobs.drop (i + 1)) } := by
  induction jobs generalizing s i with
  | nil => simp at hi
  | cons job rest ih =>
    cases i with
    | zero =>
      simp at hi
      subst hi
      rfl
    | succ i =>
      simp at hi
      obtain ⟨f, o⟩ := job
      have hlen : 2 * (i + 1) + 1 = (2 * i + 1) + 1 + 1 := by omega
      rw [hlen]
      exact ih (settleFile f o (announceFile f s)) i hi

theorem handleFileUpload_isProcessing (jobs : List (File × FetchResult))
    (s : ConversationState) (hne : jobs ≠ []) :
    (handleFileUpload jobs s).isProcessing = false := by
  induction jobs generalizing s with
  | nil => exact absurd rfl hne
  | cons job rest ih =>
    obtain ⟨file, fr⟩ := job
    cases rest with
    | nil => rfl
    | cons next more => exact ih (settleFile file fr (announceFile file s)) (by simp)

/-- C8: along a run of `handleFileUpload` on at least one file, the request of
every file comes to be in flight, with `isProcessing` true and the file's two
announcements as the latest messages; the next step records the file's terminal
message and leaves `isProcessing` false; whenever a request is in flight
`isProcessing` is true; the run finishes, with `isProcessing` false. -/
theorem processing_flag_during_upload (jobs : List (File × FetchResult))
    (s : ConversationState) (hne : jobs ≠ []) :
    (∀ i file fr, jobs[i]? = some (file, fr) →
        (uploadSteps (2 * i + 1) (startUpload jobs s)).pc
            = .awaiting file fr (jobs.drop (i + 1))
        ∧ (uploadSteps (2 * i + 1) (startUpload jobs s)).state.isProcessing = true
        ∧ (∃ before, (uploadSteps (2 * i + 1) (startUpload jobs s)).state.messages
            = before ++ [uploadedMessage file, processingMessage file])
        ∧ (uploadSteps (2 * i + 2) (startUpload jobs s)).state.messages
            = (uploadSteps (2 * i + 1) (startUpload jobs s)).state.messages
                ++ [terminalMessage file fr]
        ∧ (uploadSteps (2 * i + 2) (startUpload jobs s)).state.isProcessing = false)
    ∧ (∀ k file fr queue,
        (uploadSteps k (startUpload jobs s)).pc = .awaiting file fr queue →
        (uploadSteps k (startUpload jobs s)).state.isProcessing = true)
    ∧ uploadSteps (2 * jobs.length + 1) (startUpload jobs s)
        = { state := handleFileUpload jobs s, pc := .finished }
    ∧ (handleFileUpload jobs s).isProcessing = false := by
  refine ⟨?_, ?_, uploadSteps_finished jobs s, handleFileUpload_isProcessing jobs s hne⟩
  · intro i file fr hi
    have hflight := uploadSteps_in_flight jobs s i file fr hi
    have hnext : uploadSteps (2 * i + 2) (startUpload jobs s)
        = uploadStep (uploadSteps (2 * i + 1) (startUpload jobs s)) :=
      uploadSteps_succ (2 * i + 1) _
    rw [hnext, hflight]
    refine ⟨rfl, rfl, ⟨(handleFileUpload (jobs.take i) s).messages, ?_⟩, rfl, rfl⟩
    simp [announceFile]
  · intro k file fr queue h
    cases k with
    | zero => simp [uploadSteps, startUpload] at h
    | succ k =>
      rw [uploadSteps_succ] at h ⊢
      exact (uploadStep_awaiting _ file fr queue h).1

/-- Witness of C8: a rejected request followed by a successful one. -/
theorem processing_flag_during_upload_witness :
    (uploadSteps (2 * 1 + 1) (startUpload sampleJobs initialState)).state.isProcessing = true
    ∧ (uploadSteps (2 * 1 + 2) (startUpload sampleJobs initialState)).state.isProcessing = false
    ∧ (handleFileUpload sampleJobs initialState).isProcessing = false :=
  ⟨((processing_flag_during_upload sampleJobs initialState (List.cons_ne_nil _ _)).1
      1 sampleFile (okResponse (successBody sampleWidgetInvoice)) rfl).2.1,
   ((processing_flag_during_upload sampleJobs initialState (List.cons_ne_nil _ _)).1
      1 sampleFile (okResponse (successBody sampleWidgetInvoice)) rfl).2.2.2.2,
   (processing_flag_during_upload sampleJobs initialState (List.cons_ne_nil _ _)).2.2.2⟩

/-! ## The timeline is append-only -/

theorem transition_messages (s t : ConversationState) (h : Transition s t) :
    s.messages <+: t.messages := by
  cases h with
  | typed text => exact List.prefix_refl _
  | sent =>
    unfold handleSendMessage
    split_ifs
    · exact List.prefix_append _ _
    · exact List.prefix_refl _
  | replied hpending => exact List.prefix_append _ _
  | announced file =>
    show s.messages <+: s.messages ++ [uploadedMessage file] ++ [processingMessage file]
    rw [List.append_assoc]
    exact List.prefix_append _ _
  | settled file fr => exact List.prefix_append _ _

theorem uploadStep_messages (r : UploadRun) :
    r.state.messages <+: (uploadStep r).state.messages := by
  obtain ⟨state, pc⟩ := r
  cases pc with
  | loopHead jobs =>
    cases jobs with
    | nil => exact List.prefix_refl _
    | cons job rest =>
      obtain ⟨file, fr⟩ := job
      exact transition_messages _ _ (Transition.announced file state)
  | awaiting file fr queue => exact List.prefix_append _ _
  | finished => exact List.prefix_refl _

theorem reachable_welcome (s : ConversationState) (h : Reachable s) :
    [welcomeMessage] <+: s.messages := by
  induction h with
  | init => exact List.prefix_refl _
  | step _ ht ih => exact List.IsPrefix.trans ih (transition_messages _ _ ht)

/-- C9: the timeline starts as the single welcome `bot` message, and every
transition of the controller (typing, `handleSendMessage`, the firing of the
delayed reply, each step of `handleFileUpload`) keeps the previous timeline as
a prefix of the new one; hence in every reachable state the welcome message is
first. -/
theorem timeline_append_only :
    initialState.messages = [welcomeMessage]
    ∧ welcomeMessage.type = .bot
    ∧ (∀ s t, Transition s t → s.messages <+: t.messages)
    ∧ (∀ r : UploadRun, r.state.messages <+: (uploadStep r).state.messages)
    ∧ (∀ jobs s, s.messages <+: (handleFileUpload jobs s).messages)
    ∧ (∀ s, Reachable s →
        [welcomeMessage] <+: s.messages ∧ s.messages.head? = some welcomeMessage) := by
  refine ⟨rfl, rfl, transition_messages, uploadStep_messages, ?_, ?_⟩
  · intro jobs s
    rw [handleFileUpload_messages]
    exact List.prefix_append _ _
  · intro s hs
    have hp := reachable_welcome s hs
    refine ⟨hp, ?_⟩
    obtain ⟨rest, hrest⟩ := hp
    rw [← hrest]
    rfl

/-- Witness of C9: sending `hello` from the initial state. -/
theorem timeline_append_only_witness :
    typedHello.messages <+: (handleSendMessage typedHello).messages
    ∧ (handleSendMessage typedHello).messages.head? = some welcomeMessage :=
  ⟨timeline_append_only.2.2.1 typedHello (handleSendMessage typedHello)
      (Transition.sent typedHello),
   (timeline_append_only.2.2.2.2.2 (handleSendMessage typedHello)
      (Reachable.step (Reachable.step Reachable.init (Transition.typed "hello" initialState))
        (Transition.sent typedHello))).2⟩

/-! ## `uploadInvoice` -/

theorem uploadInvoice_error_status (status : Nat) (errorData : JsVal)
    (h : ¬ (200 ≤ status ∧ status ≤ 299)) :
    uploadInvoice (.resolved ⟨status, .parsed errorData⟩)
      = .error (errorDataMessage errorData status) := by
  have hok : (decide (200 ≤ status) && decide (status ≤ 299)) = false := by
    simpa using h
  simp [uploadInvoice, Response.ok, hok]

theorem errorDataMessage_of_detail (status : Nat) (errorData : JsVal)
    (hnn : errorData.nullish = false) :
    errorDataMessage errorData status
      = if (errorData.get .detail).truthy then
          (if (errorData.get .detail).throws then toPrimitiveError
           else (errorData.get .detail).text)
        else httpErrorMessage status := by
  unfold errorDataMessage
  rw [getProp_of_not_nullish _ _ hnn]
  simp only [toStringOf]
  split_ifs <;> rfl

theorem uploadInvoice_never_returns (status : Nat) (json : JsonResult)
    (h : ¬ (200 ≤ status ∧ status ≤ 299)) :
    ∃ m, uploadInvoice (.resolved ⟨status, json⟩) = .error m := by
  have hok : (decide (200 ≤ status) && decide (status ≤ 299)) = false := by
    simpa using h
  cases json with
  | syntaxError m => exact ⟨m, by simp [uploadInvoice, Response.ok, hok]⟩
  | parsed body => exact ⟨_, by simp [uploadInvoice, Response.ok, hok]; rfl⟩

/-- C10 at the failing input: a 502 response whose body is not JSON makes
`uploadInvoice` fail with the message of the `SyntaxError` of `response.json()`,
not with the generic `HTTP error! status: 502`. -/
theorem uploadInvoice_unparseable_error_body :
    uploadInvoice (.resolved ⟨502, .syntaxError "Unexpected token < in JSON at position 0"⟩)
      = .error "Unexpected token < in JSON at position 0"
    ∧ httpErrorMessage 502 = "HTTP error! status: 502"
    ∧ uploadInvoice (.resolved ⟨502, .syntaxError "Unexpected token < in JSON at position 0"⟩)
      ≠ .error (httpErrorMessage 502) := by
  refine ⟨rfl, by decide, ?_⟩
  intro h
  have hrun : uploadInvoice
      (.resolved ⟨502, .syntaxError "Unexpected token < in JSON at position 0"⟩)
      = .error "Unexpected token < in JSON at position 0" := rfl
  rw [hrun] at h
  exact absurd (Except.error.inj h) (by decide)

end Phyntra
